import Mathlib

/-!
Verification of the local-sync core (src/src/sync.cpp) of the MEGA SDK fork.

Shallow embedding: local paths are byte lists (`List Nat`), the node arena is an
association list from node ids to `LocalNode` records, and all process-wide
client state (fsid index, notification queues, activity flags, event stream to
the application) is carried in one `SyncState` record.  External collaborators
(filesystem gateway, directory-notification source, application callbacks) are
an `Env` of oracle functions, following the spec section 6.

Functions translated from the source: Sync::Sync, Sync::~Sync,
Sync::changestate, Sync::localnodebypath, Sync::scan, Sync::checkpath,
Sync::procscanq.  LocalNode/MegaClient helpers that sync.cpp calls but whose
bodies are not part of the given source (setnotseen, setfsid, setnameparent,
getlocalpath, init, stopxfer, genfingerprint) are modelled from the spec; each
carries a doc comment saying so.
-/

namespace MegaSync

/-- Node kinds, enum nodetype of the source (FILENODE / FOLDERNODE). -/
inductive Nodetype where
  | FILENODE
  | FOLDERNODE
deriving DecidableEq

/-- Controller states, enum syncstate of the source. -/
inductive Syncstate where
  | SYNC_INITIALSCAN
  | SYNC_ACTIVE
  | SYNC_FAILED
  | SYNC_CANCELED
deriving DecidableEq

/-- Metadata reported by a successful FileAccess::fopen: kind, size,
modification time and the optional (valid) stable filesystem id. -/
structure FaInfo where
  ftype : Nodetype
  size : Int
  mtime : Nat
  fsid : Option Nat
deriving DecidableEq

/-- Outcome of FileAccess::fopen: success with metadata, transient failure
(fa->retry set), or permanent failure.  The spec section 9 asks for exactly
this three-valued variant. -/
inductive FopenRes where
  | ok (fa : FaInfo)
  | transient
  | perm
deriving DecidableEq

/-- Application callbacks made by this core (MegaApp syncupdate_*). -/
inductive Event where
  | stateChange (s : Syncstate)
  | localMove (fromName toPath : List Nat)
  | folderAddition (path : List Nat)
  | fileAddition (path : List Nat)
  | fileChange (path : List Nat)
deriving DecidableEq

/-- One entry of a dirnotify notification queue: (node hint, raw local path). -/
structure NotifyEntry where
  localnode : Option Nat
  path : List Nat
deriving DecidableEq

/-- A tracked tree node (class LocalNode).  children/schildren are the
primary and alias (short-name) name-to-child mappings; fsidRegistered models
fsid_it != client->fsidnode.end(); size/mtime are the fingerprint fields
(size -1 = fingerprint not yet computed, as in FileFingerprint). -/
structure LocalNode where
  ntype : Nodetype
  localname : List Nat
  parent : Option Nat
  children : List (List Nat × Nat)
  schildren : List (List Nat × Nat)
  fsid : Nat
  fsidRegistered : Bool
  notseen : Nat
  scanseq : Nat
  size : Int
  mtime : Nat
  hasTransfer : Bool
  syncid : Nat
deriving DecidableEq

/-- The whole mutable state one Sync touches: its node arena and counters plus
the client-owned structures (fsid index, queues, activity flags) and the
stream of application events already emitted. -/
structure SyncState where
  nodes : List (Nat × LocalNode)
  rootId : Nat
  nextId : Nat
  state : Syncstate
  localbytes : Int
  scanseqno : Nat
  notifyq0 : List NotifyEntry
  notifyq1 : List NotifyEntry
  fsidnode : List (Nat × Nat)
  syncadded : List Nat
  syncactivity : Bool
  registered : Bool
  events : List Event
deriving DecidableEq

/-- External collaborators: the filesystem gateway (separator, fopen, the
directory enumerator used by scan, name/path transcoding) and the
application syncability predicate sync_syncable(name, path, localname).
The separator is stored head/tail so it is nonempty by construction. -/
structure Env where
  sepH : Nat
  sepT : List Nat
  fopen : List Nat → FopenRes
  diropen : List Nat → Bool
  dirents : List Nat → List (List Nat)
  local2name : List Nat → List Nat
  local2path : List Nat → List Nat
  syncable : List Nat → List Nat → List Nat → Bool

/-- The platform path separator (fsaccess->localseparator), nonempty. -/
def Env.sep (e : Env) : List Nat := e.sepH :: e.sepT

/-- First-match association-list lookup (std::map::find). -/
def alookup {κ β : Type} [DecidableEq κ] (k : κ) : List (κ × β) → Option β
  | [] => none
  | e :: rest => if e.1 = k then some e.2 else alookup k rest

/-- Node-arena lookup with a default (a C++ pointer dereference never fails;
the default is only reachable from states the source could not build). -/
def getNode (st : SyncState) (id : Nat) : LocalNode :=
  match alookup id st.nodes with
  | some nd => nd
  | none =>
    { ntype := Nodetype.FOLDERNODE, localname := [], parent := none,
      children := [], schildren := [], fsid := 0, fsidRegistered := false,
      notseen := 0, scanseq := 0, size := -1, mtime := 0,
      hasTransfer := false, syncid := 0 }

/-- In-place mutation of one node of the arena. -/
def updateNode (st : SyncState) (id : Nat) (f : LocalNode → LocalNode) : SyncState :=
  { st with nodes := st.nodes.map (fun e => if e.1 = id then (e.1, f e.2) else e) }

/-- Append one application callback to the event stream. -/
def emit (ev : Event) (st : SyncState) : SyncState :=
  { st with events := st.events ++ [ev] }

/-- Modelled from the spec: LocalNode::setnotseen (body not in src) stores the
new consecutive-miss count in the node. -/
def setnotseen (st : SyncState) (id : Nat) (n : Nat) : SyncState :=
  updateNode st id (fun nd => { nd with notseen := n })

/-- Modelled from the spec: LocalNode::setfsid (body not in src) records the
filesystem identity on the node and registers it in the process-wide reverse
index, first clearing any prior registration of that identity (and this
node), so that an identity is registered for at most one node at a time. -/
def setfsid (st : SyncState) (id : Nat) (f : Nat) : SyncState :=
  let st1 := { st with
    fsidnode := (f, id) :: st.fsidnode.filter (fun e => e.1 ≠ f ∧ e.2 ≠ id) }
  updateNode st1 id (fun nd => { nd with fsid := f, fsidRegistered := true })

/-- Modelled from the spec: MegaClient::stopxfer (body not in src) cancels the
node's in-flight outgoing transfer. -/
def stopxfer (st : SyncState) (id : Nat) : SyncState :=
  updateNode st id (fun nd => { nd with hasTransfer := false })

/-- Modelled from the spec: FileFingerprint::genfingerprint (body not in src)
recomputes the fingerprint (size, mtime) from the open file and reports
whether it changed. -/
def genfingerprint (st : SyncState) (id : Nat) (fa : FaInfo) : SyncState × Bool :=
  let nd := getNode st id
  (updateNode st id (fun n => { n with size := fa.size, mtime := fa.mtime }),
   decide (nd.size ≠ fa.size ∨ nd.mtime ≠ fa.mtime))

/-- Modelled from the spec: LocalNode::setnameparent (body not in src)
re-parents a node: it is removed from both mappings of its old parent, its
path fragment becomes the new name, and it is inserted into the new parent's
primary mapping under that name (unique keys: a same-name entry is replaced). -/
def setnameparent (st : SyncState) (id : Nat) (newparent : Option Nat)
    (newname : List Nat) : SyncState :=
  let st1 := match (getNode st id).parent with
    | some op => updateNode st op (fun pn =>
        { pn with children := pn.children.filter (fun e => e.2 ≠ id),
                  schildren := pn.schildren.filter (fun e => e.2 ≠ id) })
    | none => st
  let st2 := updateNode st1 id (fun nd =>
    { nd with parent := newparent, localname := newname })
  match newparent with
  | some np => updateNode st2 np (fun pn =>
      { pn with children := (newname, id) :: pn.children.filter (fun e => e.1 ≠ newname) })
  | none => st2

/-- The record a fresh LocalNode starts from: given kind, resolved parent and
path fragment, fresh tracking id, uncomputed fingerprint (size -1), cleared
not-seen counter. -/
def initNode (st : SyncState) (t : Nodetype) (parent : Option Nat)
    (fragment : List Nat) : LocalNode :=
  { ntype := t, localname := fragment, parent := parent, children := [],
    schildren := [], fsid := 0, fsidRegistered := false, notseen := 0,
    scanseq := st.scanseqno, size := -1, mtime := 0, hasTransfer := false,
    syncid := st.nextId }

/-- Modelled from the spec: LocalNode::init (body not in src) allocates a new
node of the given kind under the resolved parent with the resolved path
fragment and links it into the parent's primary mapping (unique keys: a
same-name entry is replaced). -/
def allocNode (st : SyncState) (t : Nodetype) (parent : Option Nat)
    (fragment : List Nat) : SyncState × Nat :=
  let id := st.nextId
  let nd := initNode st t parent fragment
  let st1 := { st with nodes := (id, nd) :: st.nodes, nextId := id + 1 }
  let st2 := match parent with
    | some p => updateNode st1 p (fun pn =>
        { pn with children := (fragment, id) :: pn.children.filter (fun e => e.1 ≠ fragment) })
    | none => st1
  (st2, id)

/-- Fuel-indexed helper for getlocalpath; the guard p < id means fuel id + 1
always suffices, see getlocalpathF_congr. -/
def getlocalpathF (sep : List Nat) (st : SyncState) : Nat → Nat → List Nat
  | 0, _ => []
  | fuel + 1, id =>
    match alookup id st.nodes with
    | none => []
    | some nd =>
      match nd.parent with
      | none => nd.localname
      | some p =>
        if p < id then getlocalpathF sep st fuel p ++ sep ++ nd.localname
        else nd.localname

/-- Modelled from the spec: LocalNode::getlocalpath (body not in src) rebuilds
the full filesystem path by joining the parent chain's fragments with the
separator.  On states satisfying treeWFB, parent indices strictly decrease,
so the recursion (bounded by the id) always reaches the root. -/
def getlocalpath (sep : List Nat) (st : SyncState) (id : Nat) : List Nat :=
  getlocalpathF sep st (id + 1) id

theorem getlocalpathF_congr (sep : List Nat) (st : SyncState) :
    ∀ f1 f2 id, id < f1 → id < f2 →
      getlocalpathF sep st f1 id = getlocalpathF sep st f2 id := by
  intro f1
  induction f1 with
  | zero => intro f2 id h1; omega
  | succ f1 ih =>
    intro f2 id h1 h2
    match f2, h2 with
    | f2 + 1, _ =>
      show getlocalpathF sep st (f1 + 1) id = getlocalpathF sep st (f2 + 1) id
      simp only [getlocalpathF]
      split
      · rfl
      · split
        · rfl
        · rename_i nd hnd p hp
          by_cases hpi : p < id
          · simp only [if_pos hpi]
            rw [ih f2 p (by omega) (by omega)]
          · simp only [if_neg hpi]

/-- One-step unfolding of getlocalpath. -/
theorem getlocalpath_unfold (sep : List Nat) (st : SyncState) (id : Nat) :
    getlocalpath sep st id =
      match alookup id st.nodes with
      | none => []
      | some nd =>
        match nd.parent with
        | none => nd.localname
        | some p =>
          if p < id then getlocalpath sep st p ++ sep ++ nd.localname
          else nd.localname := by
  show getlocalpathF sep st (id + 1) id = _
  simp only [getlocalpathF]
  split
  · rfl
  · split
    · rfl
    · rename_i nd hnd p hp
      by_cases hpi : p < id
      · simp only [if_pos hpi]
        rw [getlocalpathF_congr sep st id (p + 1) p (by omega) (by omega)]
        rfl
      · simp only [if_neg hpi]

/-! ### Sync controller lifecycle (sync.cpp lines 30-67)

changestate and the destructor are given as sequences of primitive steps plus
an interpreter, so that the order between notifying the application and
overwriting the stored state field is part of the formalisation. -/

/-- Primitive steps taken by changestate and the destructor. -/
inductive SyncOp where
  | notifyApp (s : Syncstate)
  | storeState (s : Syncstate)
  | eraseSync
  | flagActivity
deriving DecidableEq

/-- Effect of one primitive step on the state. -/
def applyOp (st : SyncState) : SyncOp → SyncState
  | SyncOp.notifyApp s => emit (Event.stateChange s) st
  | SyncOp.storeState s => { st with state := s }
  | SyncOp.eraseSync => { st with registered := false }
  | SyncOp.flagActivity => { st with syncactivity := true }

def applyOps (st : SyncState) (ops : List SyncOp) : SyncState :=
  ops.foldl applyOp st

/-- Step sequence of Sync::changestate (lines 59-67): nothing on a no-op
transition, otherwise notify the app first, then overwrite the state. -/
def changestateOps (cur new : Syncstate) : List SyncOp :=
  if new = cur then [] else [SyncOp.notifyApp new, SyncOp.storeState new]

/-- Sync::changestate (lines 59-67). -/
def changestate (st : SyncState) (new : Syncstate) : SyncState :=
  applyOps st (changestateOps st.state new)

/-- Step sequence of Sync::~Sync (lines 49-57): direct assignment
state = SYNC_CANCELED (no app notification), then deregistration from the
client's syncs list, then the activity flag. -/
def destructorOps : List SyncOp :=
  [SyncOp.storeState Syncstate.SYNC_CANCELED, SyncOp.eraseSync, SyncOp.flagActivity]

/-- Sync::~Sync (lines 49-57). -/
def syncDestructor (st : SyncState) : SyncState :=
  applyOps st destructorOps

/-- Sync::Sync (lines 30-47): fresh controller in SYNC_INITIALSCAN with zero
counters, a FOLDERNODE root initialised from the root path, registered in the
client's sync collection. -/
def syncInit (rootpath : List Nat) : SyncState :=
  { nodes := [(0,
      { ntype := Nodetype.FOLDERNODE, localname := rootpath, parent := none,
        children := [], schildren := [], fsid := 0, fsidRegistered := false,
        notseen := 0, scanseq := 0, size := -1, mtime := 0,
        hasTransfer := false, syncid := 0 })],
    rootId := 0, nextId := 1, state := Syncstate.SYNC_INITIALSCAN,
    localbytes := 0, scanseqno := 0, notifyq0 := [], notifyq1 := [],
    fsidnode := [], syncadded := [], syncactivity := false,
    registered := true, events := [] }

/-! ### Path resolver, Sync::localnodebypath (lines 73-126) -/

/-- One component scan of the inner loop of localnodebypath: starting at a
component boundary, advance in separator-sized strides until the end of the
path or a separator match.  Returns the component and, when a separator was
found, the remainder after it.  (Where the source would stride past the end
of the buffer - possible only for a multi-byte separator misaligned with the
path - this model stops at the end.) -/
def scanChunkF (a : Nat) (tl : List Nat) : Nat → List Nat → List Nat × Option (List Nat)
  | _, [] => ([], none)
  | 0, s => (s, none)
  | fuel + 1, c :: rest =>
    if (a :: tl).isPrefixOf (c :: rest) then
      ([], some ((c :: rest).drop (tl.length + 1)))
    else
      let pr := scanChunkF a tl fuel (rest.drop tl.length)
      ((c :: rest).take (tl.length + 1) ++ pr.1, pr.2)

theorem scanChunkF_congr (a : Nat) (tl : List Nat) :
    ∀ f1 f2 (s : List Nat), s.length ≤ f1 → s.length ≤ f2 →
      scanChunkF a tl f1 s = scanChunkF a tl f2 s := by
  intro f1
  induction f1 with
  | zero =>
    intro f2 s h1 h2
    have : s = [] := List.length_eq_zero.mp (Nat.le_zero.mp h1)
    subst this
    cases f2 <;> rfl
  | succ f1 ih =>
    intro f2 s h1 h2
    match s with
    | [] => cases f2 <;> rfl
    | c :: rest =>
      match f2, h2 with
      | f2 + 1, _ =>
        show scanChunkF a tl (f1 + 1) (c :: rest) = scanChunkF a tl (f2 + 1) (c :: rest)
        simp only [scanChunkF]
        by_cases hp : (a :: tl).isPrefixOf (c :: rest)
        · simp only [if_pos hp]
        · simp only [if_neg hp]
          rw [ih f2 (rest.drop tl.length)
            (by simp only [List.length_drop, List.length_cons] at *; omega)
            (by simp only [List.length_drop, List.length_cons] at *; omega)]

/-- The component scan of the inner loop (see the doc comment above). -/
def scanChunk (a : Nat) (tl : List Nat) (s : List Nat) : List Nat × Option (List Nat) :=
  scanChunkF a tl s.length s

/-- One-step unfolding of scanChunk. -/
theorem scanChunk_unfold (a : Nat) (tl : List Nat) (c : Nat) (rest : List Nat) :
    scanChunk a tl (c :: rest) =
      if (a :: tl).isPrefixOf (c :: rest) then
        ([], some ((c :: rest).drop (tl.length + 1)))
      else
        let pr := scanChunk a tl (rest.drop tl.length)
        ((c :: rest).take (tl.length + 1) ++ pr.1, pr.2) := by
  show scanChunkF a tl (rest.length + 1) (c :: rest) = _
  simp only [scanChunkF]
  by_cases hp : (a :: tl).isPrefixOf (c :: rest)
  · simp only [if_pos hp]
  · simp only [if_neg hp]
    rw [scanChunkF_congr a tl rest.length (rest.drop tl.length).length (rest.drop tl.length)
      (by simp only [List.length_drop]; omega) le_rfl]
    rfl

/-- Decomposition of the component scan: the input is the component followed,
when a separator was found, by the separator and the remainder. -/
theorem scanChunk_eq (a : Nat) (tl : List Nat) : ∀ s : List Nat,
    s = (scanChunk a tl s).1 ++
      ((scanChunk a tl s).2.elim [] (fun r => (a :: tl) ++ r)) := by
  have H : ∀ n (s : List Nat), s.length ≤ n →
      s = (scanChunk a tl s).1 ++
        ((scanChunk a tl s).2.elim [] (fun r => (a :: tl) ++ r)) := by
    intro n
    induction n with
    | zero =>
      intro s hs
      have : s = [] := List.length_eq_zero.mp (Nat.le_zero.mp hs)
      subst this
      rfl
    | succ n ih =>
      intro s hs
      match s with
      | [] => rfl
      | c :: rest =>
        rw [scanChunk_unfold]
        by_cases hp : (a :: tl).isPrefixOf (c :: rest)
        · rw [if_pos hp]
          have hpre : (a :: tl) <+: (c :: rest) := by
            exact List.isPrefixOf_iff_prefix.mp hp
          obtain ⟨t, ht⟩ := hpre
          simp only [Option.elim]
          have hd : (c :: rest).drop (tl.length + 1) = t := by
            have : (c :: rest).drop (a :: tl).length = t := by
              rw [← ht, List.drop_left]
            simpa using this
          simp [hd, ← ht]
        · rw [if_neg hp]
          have hlen : (rest.drop tl.length).length ≤ n := by
            simp only [List.length_drop]
            simp only [List.length_cons] at hs
            omega
          have ihr := ih (rest.drop tl.length) hlen
          have hds : (c :: rest).drop (tl.length + 1) = rest.drop tl.length := rfl
          simp only [List.append_assoc]
          rw [← ihr, ← hds, List.take_append_drop]
  intro s
  exact H s.length s le_rfl

/-- When the scan finds a separator, the remainder is strictly shorter. -/
theorem scanChunk_rest_lt {a : Nat} {tl : List Nat} {s comp r : List Nat}
    (h : scanChunk a tl s = (comp, some r)) : r.length < s.length := by
  have := scanChunk_eq a tl s
  rw [h] at this
  simp only [Option.elim] at this
  rw [this]
  simp only [List.length_append, List.length_cons]
  omega

/-- Lookup of one component: primary mapping first, then the alias mapping
(line 105). -/
def childLookup (st : SyncState) (cur : Nat) (comp : List Nat) : Option Nat :=
  match alookup comp (getNode st cur).children with
  | some child => some child
  | none => alookup comp (getNode st cur).schildren

/-- Fuel-indexed body of the for(;;) loop of localnodebypath; the remainder
shrinks at every step, so fuel s.length + 1 always suffices. -/
def lnbpLoopF (env : Env) (st : SyncState) :
    Nat → Nat → List Nat → Option Nat × Option Nat × List Nat
  | 0, cur, s => (none, some cur, s)
  | fuel + 1, cur, s =>
    match scanChunk env.sepH env.sepT s with
    | (comp, none) =>
      match childLookup st cur comp with
      | none => (none, some cur, s)
      | some child => (some child, some cur, [])
    | (comp, some r) =>
      match childLookup st cur comp with
      | none => (none, some cur, s)
      | some child => lnbpLoopF env st fuel child r

theorem lnbpLoopF_congr (env : Env) (st : SyncState) :
    ∀ f1 f2 cur (s : List Nat), s.length < f1 → s.length < f2 →
      lnbpLoopF env st f1 cur s = lnbpLoopF env st f2 cur s := by
  intro f1
  induction f1 with
  | zero => intro f2 cur s h1; omega
  | succ f1 ih =>
    intro f2 cur s h1 h2
    match f2, h2 with
    | f2 + 1, _ =>
      show lnbpLoopF env st (f1 + 1) cur s = lnbpLoopF env st (f2 + 1) cur s
      simp only [lnbpLoopF]
      split
      · rfl
      · rename_i comp r hsc
        split
        · rfl
        · rename_i child hcl
          have hlt := scanChunk_rest_lt hsc
          exact ih f2 child r (by omega) (by omega)

/-- The for(;;) loop of localnodebypath (lines 98-125): walk components from
node cur, looking each up in children, then in schildren; on a miss return
the current node as parent and everything from the failing component on as
the residual; on a full match return the node with a cleared residual. -/
def lnbpLoop (env : Env) (st : SyncState) (cur : Nat) (s : List Nat) :
    Option Nat × Option Nat × List Nat :=
  lnbpLoopF env st (s.length + 1) cur s

/-- One-step unfolding of lnbpLoop. -/
theorem lnbpLoop_unfold (env : Env) (st : SyncState) (cur : Nat) (s : List Nat) :
    lnbpLoop env st cur s =
      match scanChunk env.sepH env.sepT s with
      | (comp, none) =>
        match childLookup st cur comp with
        | none => (none, some cur, s)
        | some child => (some child, some cur, [])
      | (comp, some r) =>
        match childLookup st cur comp with
        | none => (none, some cur, s)
        | some child => lnbpLoop env st child r := by
  show lnbpLoopF env st (s.length + 1) cur s = _
  simp only [lnbpLoopF]
  split
  · rfl
  · rename_i comp r hsc
    split
    · rfl
    · rename_i child hcl
      have hlt := scanChunk_rest_lt hsc
      exact lnbpLoopF_congr env st s.length (r.length + 1) child r (by omega) (by omega)

/-- Sync::localnodebypath (lines 73-126).  With no starting node the path must
begin with the root's own name followed by the separator (lines 81-92),
otherwise resolution fails with no parent and no residual.  Returns
(match, parent, residual). -/
def localnodebypath (env : Env) (st : SyncState) (l : Option Nat)
    (localpath : List Nat) : Option Nat × Option Nat × List Nat :=
  match l with
  | some lid => lnbpLoop env st lid localpath
  | none =>
    let rootname := (getNode st st.rootId).localname
    if (rootname ++ env.sep).isPrefixOf localpath then
      lnbpLoop env st st.rootId (localpath.drop (rootname.length + env.sep.length))
    else (none, none, [])

/-! ### Scanner, Sync::scan (lines 141-181) -/

/-- Sync::scan: open the directory, enumerate children, and enqueue a
DIREVENTS notification for every child the syncability predicate accepts,
carrying the child's full path; returns whether the enumeration opened. -/
def scan (env : Env) (st : SyncState) (localpath : List Nat) : SyncState × Bool :=
  if env.diropen localpath then
    ((env.dirents localpath).foldl (fun s cn =>
      let name := env.local2name cn
      if env.syncable name localpath cn then
        let childpath := if localpath = [] then cn else localpath ++ env.sep ++ cn
        { s with notifyq0 := s.notifyq0 ++ [⟨none, childpath⟩] }
      else s) st, true)
  else (st, false)

/-! ### Change detector, Sync::checkpath (lines 188-342)

The translation follows the source blocks: the path/veto preamble
(lines 200-233), then the fopen dispatch, with the success path split into
the node-matching block (lines 240-284), the kind-specific block
(lines 286-311) and the activity epilogue (lines 313-318). -/

/-- The full filesystem path represented by l + localpath (lines 211-218). -/
def cpTmppath (env : Env) (st : SyncState) (l : Option Nat)
    (localpath : List Nat) : List Nat :=
  let t := match l with
    | some id => getlocalpath env.sep st id
    | none => []
  if localpath = [] then t
  else if t = [] then localpath else t ++ env.sep ++ localpath

/-- Data carried out of the checkpath preamble. -/
structure PreInfo where
  isroot : Bool
  parent : Option Nat
  l0 : Option Nat
  path : List Nat
  target : List Nat
  fragment : List Nat
deriving DecidableEq

/-- checkpath preamble (lines 200-233): the shortcut case with an explicit
last component skips resolution and the syncability check; otherwise resolve
the path (line 221), drop invalid paths (line 224), apply the syncability
predicate to the unmatched component (lines 226-228) and compute isroot
(line 230).  none = early return with no result. -/
def checkpathPre (env : Env) (st : SyncState) (l : Option Nat)
    (localpath : List Nat) (localname : Option (List Nat)) : Option PreInfo :=
  match localname with
  | some nm =>
    some ⟨false, l, none, env.local2path localpath, localpath, nm⟩
  | none =>
    let tmppath := cpTmppath env st l localpath
    let res := localnodebypath env st l localpath
    if res.1 = none ∧ res.2.2 = [] then none
    else
      let name := env.local2name res.2.2
      if env.syncable name tmppath res.2.2 then
        some ⟨decide (res.1 = some st.rootId ∧ res.2.2 = []), res.2.1, res.1,
              env.local2path tmppath, tmppath, res.2.2⟩
      else none

/-- Refresh of a matched node (lines 253-255): reset not-seen, stamp the
current sweep (the identity refresh of line 253 happens before, in the
caller). -/
def cpRefresh (st : SyncState) (id : Nat) : SyncState :=
  let s1 := setnotseen st id 0
  updateNode s1 id (fun n => { n with scanseq := s1.scanseqno })

/-- checkpath lines 240-284 (run under fopen success): refresh or invalidate
an existing match, else recognise a move through the fsid index, else create
a new node.  Returns (state, l, newnode). -/
def cpStage1 (env : Env) (st : SyncState) (p : PreInfo) (fa : FaInfo) :
    SyncState × Option Nat × Bool :=
  if p.isroot then (st, p.l0, false)
  else
    let step1 : SyncState × Option Nat :=
      match p.l0 with
      | some id =>
        let nd := getNode st id
        match fa.fsid with
        | some f =>
          if fa.ftype = Nodetype.FILENODE ∧ nd.fsidRegistered = true ∧ nd.fsid ≠ f then
            (setnotseen st id (nd.notseen + 1), none)
          else (cpRefresh (setfsid st id f) id, some id)
        | none => (cpRefresh st id, some id)
      | none => (st, none)
    match step1 with
    | (st1, some id) => (st1, some id, false)
    | (st1, none) =>
      let fresh : SyncState × Option Nat × Bool :=
        let pr := allocNode st1 fa.ftype p.parent p.fragment
        let st2 := match fa.fsid with
          | some f => setfsid pr.1 pr.2 f
          | none => pr.1
        (st2, some pr.2, true)
      match fa.fsid with
      | some f =>
        match alookup f st1.fsidnode with
        | some mid =>
          let st2 := emit (Event.localMove (getNode st1 mid).localname p.path) st1
          let st3 := setnameparent st2 mid p.parent p.fragment
          (setnotseen st3 mid 0, none, false)
        | none => fresh
      | none => fresh

/-- Tail of the FILE case: recompute the fingerprint, add the new size back,
emit the addition or change event. -/
def cpFileCore (env : Env) (st1 : SyncState) (p : PreInfo) (fa : FaInfo)
    (id : Nat) (newnode : Bool) : SyncState × Bool :=
  let pr := genfingerprint st1 id fa
  let nd2 := getNode pr.1 id
  let st3 := if nd2.size > 0 then
      { pr.1 with localbytes := pr.1.localbytes + nd2.size } else pr.1
  let st4 := if newnode then emit (Event.fileAddition p.path) st3
             else if pr.2 then emit (Event.fileChange p.path) st3 else st3
  (st4, pr.2)

/-- The FILE case of checkpath lines 303-308: subtract the old fingerprint
size, recompute the fingerprint from the open handle, add the new size back,
and emit the addition or change event.  Returns (state, changed). -/
def cpFileRefresh (env : Env) (st : SyncState) (p : PreInfo) (fa : FaInfo)
    (id : Nat) (newnode : Bool) : SyncState × Bool :=
  let nd := getNode st id
  let st1 := if nd.size > 0 then
      { st with localbytes := st.localbytes - nd.size } else st
  cpFileCore env st1 p fa id newnode

/-- checkpath lines 286-311: recurse into new folders, drop refreshed old
folders, fail the controller for a root file, refresh file fingerprints with
the tracked-byte bookkeeping, and emit addition/change events.
Returns (state, l, changed). -/
def cpStage2 (env : Env) (st : SyncState) (p : PreInfo) (fa : FaInfo)
    (l1 : Option Nat) (newnode : Bool) : SyncState × Option Nat × Bool :=
  match l1 with
  | none => (st, none, false)
  | some id =>
    if (getNode st id).ntype = Nodetype.FOLDERNODE then
      if newnode then
        let st1 := (scan env st p.target).1
        (emit (Event.folderAddition p.path) st1, some id, false)
      else (st, none, false)
    else
      if p.isroot then (changestate st Syncstate.SYNC_FAILED, some id, false)
      else
        let r := cpFileRefresh env st p fa id newnode
        (r.1, some id, r.2)

/-- checkpath lines 313-318: on any mutation record the node in the client's
recently-added set and flag sync activity.  (The source dereferences l here;
the none case is unreachable because changed/newnode imply l is set.) -/
def cpFinish (st : SyncState) (l2 : Option Nat) (act : Bool) : SyncState :=
  if act then
    match l2 with
    | some id =>
      let sid := (getNode st id).syncid
      { st with syncadded := if sid ∈ st.syncadded then st.syncadded else sid :: st.syncadded,
                syncactivity := true }
    | none => st
  else st

/-- Sync::checkpath (lines 188-342).  Returns the updated state and the
node returned to the caller. -/
def checkpath (env : Env) (st : SyncState) (l : Option Nat)
    (localpath : List Nat) (localname : Option (List Nat)) :
    SyncState × Option Nat :=
  match checkpathPre env st l localpath localname with
  | none => (st, none)
  | some p =>
    match env.fopen p.target with
    | FopenRes.ok fa =>
      let s1 := cpStage1 env st p fa
      let s2 := cpStage2 env s1.1 p fa s1.2.1 s1.2.2
      (cpFinish s2.1 s2.2.1 (s2.2.2 || s1.2.2), s2.2.1)
    | FopenRes.transient =>
      ({ st with notifyq1 := st.notifyq1 ++ [⟨l, localpath⟩] }, none)
    | FopenRes.perm =>
      match p.l0 with
      | some id =>
        let st1 := if (getNode st id).hasTransfer then stopxfer st id else st
        let st2 := { st1 with syncactivity := true }
        (setnotseen st2 id 1, none)
      | none => (st, none)

/-! ### Queue processor, Sync::procscanq (lines 345-359) -/

/-- The notification queues indexed as in the source: false = DIREVENTS
(index 0), true = RETRY (index 1). -/
def getq (st : SyncState) (q : Bool) : List NotifyEntry :=
  if q then st.notifyq1 else st.notifyq0

def setq (st : SyncState) (q : Bool) (v : List NotifyEntry) : SyncState :=
  if q then { st with notifyq1 := v } else { st with notifyq0 := v }

/-- The while loop of procscanq (lines 347-355): pop and check entries until
the queue is empty, stopping early after any FILENODE result.  Fuel bounds
the iteration count (checkpath can enqueue); none = fuel ran out with the
loop still running. -/
def procscanqLoop (env : Env) : Nat → SyncState → Bool → Option SyncState
  | 0, st, q => if getq st q = [] then some st else none
  | fuel + 1, st, q =>
    match getq st q with
    | [] => some st
    | e :: _ =>
      let pr := checkpath env st e.localnode e.path none
      let st1 := setq pr.1 q (getq pr.1 q).tail
      match pr.2 with
      | some id =>
        if (getNode st1 id).ntype = Nodetype.FILENODE then some st1
        else procscanqLoop env fuel st1 q
      | none => procscanqLoop env fuel st1 q

/-- Sync::procscanq (lines 345-359): drain the queue, then flag activity if
entries remain, else advance the sweep number when the other queue is also
empty. -/
def procscanq (env : Env) (fuel : Nat) (st : SyncState) (q : Bool) :
    Option SyncState :=
  match procscanqLoop env fuel st q with
  | none => none
  | some st1 =>
    some (if getq st1 q ≠ [] then { st1 with syncactivity := true }
          else if getq st1 (!q) = [] then { st1 with scanseqno := st1.scanseqno + 1 }
          else st1)

/-! ### Basic lemmas about the state helpers -/

theorem alookup_mem {κ β : Type} [DecidableEq κ] {k : κ} {v : β} :
    ∀ {l : List (κ × β)}, alookup k l = some v → (k, v) ∈ l := by
  intro l
  induction l with
  | nil => intro h; simp [alookup] at h
  | cons e rest ih =>
    intro h
    simp only [alookup] at h
    by_cases he : e.1 = k
    · rw [if_pos he] at h
      have hev : e = (k, v) := by
        cases e with
        | mk a b => simp_all
      exact hev ▸ List.mem_cons_self _ _
    · rw [if_neg he] at h
      exact List.mem_cons_of_mem _ (ih h)

theorem alookup_mapUpdate (id j : Nat) (f : LocalNode → LocalNode) :
    ∀ (l : List (Nat × LocalNode)),
      alookup j (l.map (fun e => if e.1 = id then (e.1, f e.2) else e)) =
        if j = id then (alookup j l).map f else alookup j l := by
  intro l
  induction l with
  | nil => simp only [List.map_nil, alookup]; split <;> rfl
  | cons e rest ih =>
    simp only [List.map_cons, alookup]
    by_cases h1 : e.1 = id
    · rw [if_pos h1]
      by_cases hj : j = id
      · have hej : e.1 = j := by rw [h1, hj]
        simp [alookup, hej, hj]
      · have hej : ¬ e.1 = j := by rw [h1]; exact fun hh => hj hh.symm
        simp [alookup, hej, hj, ih]
    · rw [if_neg h1]
      by_cases hej : e.1 = j
      · have hj : ¬ j = id := fun hh => h1 (hej.trans hh)
        simp [alookup, hej, hj]
      · simp [alookup, hej, ih]

theorem alookup_updateNode (st : SyncState) (id j : Nat) (f : LocalNode → LocalNode) :
    alookup j (updateNode st id f).nodes =
      if j = id then (alookup j st.nodes).map f else alookup j st.nodes :=
  alookup_mapUpdate id j f st.nodes

@[simp] theorem updateNode_localbytes (st : SyncState) (id : Nat) (f : LocalNode → LocalNode) :
    (updateNode st id f).localbytes = st.localbytes := rfl
@[simp] theorem updateNode_state (st : SyncState) (id : Nat) (f : LocalNode → LocalNode) :
    (updateNode st id f).state = st.state := rfl
@[simp] theorem updateNode_events (st : SyncState) (id : Nat) (f : LocalNode → LocalNode) :
    (updateNode st id f).events = st.events := rfl
@[simp] theorem updateNode_scanseqno (st : SyncState) (id : Nat) (f : LocalNode → LocalNode) :
    (updateNode st id f).scanseqno = st.scanseqno := rfl
@[simp] theorem updateNode_nextId (st : SyncState) (id : Nat) (f : LocalNode → LocalNode) :
    (updateNode st id f).nextId = st.nextId := rfl
@[simp] theorem updateNode_rootId (st : SyncState) (id : Nat) (f : LocalNode → LocalNode) :
    (updateNode st id f).rootId = st.rootId := rfl
@[simp] theorem updateNode_syncactivity (st : SyncState) (id : Nat) (f : LocalNode → LocalNode) :
    (updateNode st id f).syncactivity = st.syncactivity := rfl
@[simp] theorem updateNode_fsidnode (st : SyncState) (id : Nat) (f : LocalNode → LocalNode) :
    (updateNode st id f).fsidnode = st.fsidnode := rfl
@[simp] theorem updateNode_notifyq0 (st : SyncState) (id : Nat) (f : LocalNode → LocalNode) :
    (updateNode st id f).notifyq0 = st.notifyq0 := rfl
@[simp] theorem updateNode_notifyq1 (st : SyncState) (id : Nat) (f : LocalNode → LocalNode) :
    (updateNode st id f).notifyq1 = st.notifyq1 := rfl
@[simp] theorem updateNode_nodes_length (st : SyncState) (id : Nat) (f : LocalNode → LocalNode) :
    (updateNode st id f).nodes.length = st.nodes.length := by
  simp [updateNode]

@[simp] theorem emit_events (ev : Event) (st : SyncState) :
    (emit ev st).events = st.events ++ [ev] := rfl
@[simp] theorem emit_nodes (ev : Event) (st : SyncState) :
    (emit ev st).nodes = st.nodes := rfl
@[simp] theorem emit_localbytes (ev : Event) (st : SyncState) :
    (emit ev st).localbytes = st.localbytes := rfl
@[simp] theorem emit_state (ev : Event) (st : SyncState) :
    (emit ev st).state = st.state := rfl
@[simp] theorem emit_scanseqno (ev : Event) (st : SyncState) :
    (emit ev st).scanseqno = st.scanseqno := rfl
@[simp] theorem emit_nextId (ev : Event) (st : SyncState) :
    (emit ev st).nextId = st.nextId := rfl
@[simp] theorem emit_fsidnode (ev : Event) (st : SyncState) :
    (emit ev st).fsidnode = st.fsidnode := rfl

/-! ### Concrete fixtures used by witnesses and counterexamples.

Byte values: the root path is [1], the separator byte is 0, file a is [10]
(size 10, fsid 42), folder sub is [20], file b is [11]. -/

def exEnvA : Env :=
  { sepH := 0, sepT := [],
    fopen := fun p => if p = [1, 0, 10] then FopenRes.ok ⟨Nodetype.FILENODE, 10, 5, some 42⟩
                      else FopenRes.perm,
    diropen := fun _ => true, dirents := fun _ => [],
    local2name := fun n => n, local2path := fun n => n,
    syncable := fun _ _ _ => true }

/-- State after tracking file a: node 1 = FILENODE [10] under the root. -/
def exStA : SyncState := (checkpath exEnvA (syncInit [1]) none [1, 0, 10] none).1

def exEnvPerm : Env := { exEnvA with fopen := fun _ => FopenRes.perm }

def exEnvTrans : Env := { exEnvA with fopen := fun _ => FopenRes.transient }

def exEnvVeto : Env :=
  { exEnvA with fopen := fun _ => FopenRes.ok ⟨Nodetype.FILENODE, 10, 5, some 42⟩,
                syncable := fun _ _ _ => false }

def exEnvRootFile : Env :=
  { exEnvA with fopen := fun p =>
      if p = [1] then FopenRes.ok ⟨Nodetype.FILENODE, 10, 5, some 42⟩
      else FopenRes.perm }

/-- exStA after one permanent miss of file a: node 1 has notseen = 1. -/
def exStMiss : SyncState := (checkpath exEnvPerm exStA none [1, 0, 10] none).1

def exEnvB : Env :=
  { exEnvA with fopen := fun p =>
      if p = [1, 0, 20] then FopenRes.ok ⟨Nodetype.FOLDERNODE, -1, 0, some 99⟩
      else if p = [1, 0, 20, 0, 11] then FopenRes.ok ⟨Nodetype.FILENODE, 10, 5, some 42⟩
      else FopenRes.perm }

/-- exStA after also tracking folder sub: node 2 = FOLDERNODE [20] under the
root. -/
def exStB : SyncState := (checkpath exEnvB exStA none [1, 0, 20] none).1

/-! ### C10 -/

/-- C10: the destructor stores SYNC_CANCELED by direct assignment and only
then deregisters from the global collection, so the observer gets no
state-transition notification, while changestate on a real transition
notifies the observer exactly once, before the stored state is overwritten
(and is a no-op otherwise). -/
theorem changestate_destructor_contract (st : SyncState) (new : Syncstate) :
    (syncDestructor st).state = Syncstate.SYNC_CANCELED ∧
    (syncDestructor st).events = st.events ∧
    (syncDestructor st).registered = false ∧
    destructorOps = [SyncOp.storeState Syncstate.SYNC_CANCELED, SyncOp.eraseSync,
      SyncOp.flagActivity] ∧
    (∀ s, SyncOp.notifyApp s ∉ destructorOps) ∧
    (new ≠ st.state →
      changestateOps st.state new = [SyncOp.notifyApp new, SyncOp.storeState new] ∧
      (changestate st new).events = st.events ++ [Event.stateChange new] ∧
      (changestate st new).state = new) ∧
    (new = st.state → changestate st new = st) := by
  refine ⟨rfl, rfl, rfl, rfl, ?_, ?_, ?_⟩
  · intro s
    simp [destructorOps]
  · intro hne
    have hops : changestateOps st.state new = [SyncOp.notifyApp new, SyncOp.storeState new] := by
      simp [changestateOps, hne]
    refine ⟨hops, ?_, ?_⟩ <;>
      simp [changestate, hops, applyOps, applyOp, emit]
  · intro heq
    simp [changestate, changestateOps, heq, applyOps]

theorem changestate_destructor_contract_witness :
    (syncDestructor (syncInit [1])).events = (syncInit [1]).events ∧
    changestateOps (syncInit [1]).state Syncstate.SYNC_FAILED =
      [SyncOp.notifyApp Syncstate.SYNC_FAILED, SyncOp.storeState Syncstate.SYNC_FAILED] :=
  ⟨(changestate_destructor_contract (syncInit [1]) Syncstate.SYNC_FAILED).2.1,
   ((changestate_destructor_contract (syncInit [1])
      Syncstate.SYNC_FAILED).2.2.2.2.2.1 (by decide)).1⟩

/-! ### C5 -/

/-- C5: whenever fopen classifies the failure as transient, the change
detector only appends the invocation's (node hint, path) to the retry queue:
the returned state differs from the input solely in notifyq1 (so there is no
tree mutation and no event), and no result is produced. -/
theorem checkpath_transient_requeue (env : Env) (st : SyncState) (l : Option Nat)
    (lp : List Nat) (ln : Option (List Nat)) (p : PreInfo)
    (hpre : checkpathPre env st l lp ln = some p)
    (hopen : env.fopen p.target = FopenRes.transient) :
    checkpath env st l lp ln = ({ st with notifyq1 := st.notifyq1 ++ [⟨l, lp⟩] }, none) := by
  simp [checkpath, hpre, hopen]

theorem checkpath_transient_requeue_witness :
    checkpath exEnvTrans (syncInit [1]) none [1, 0, 9] (some [9]) =
      ({ syncInit [1] with notifyq1 := [⟨none, [1, 0, 9]⟩] }, none) :=
  checkpath_transient_requeue exEnvTrans (syncInit [1]) none [1, 0, 9] (some [9])
    ⟨false, none, none, [1, 0, 9], [1, 0, 9], [9]⟩ rfl rfl

/-! ### C8 -/

/-- C8 counterexample: exEnvVeto's syncability predicate vetoes every name,
yet a shortcut invocation of the change detector (explicit last-component
name, the syncdown path of lines 200-208) never consults the predicate: it
creates and returns a node, mutates the tree and emits a file-addition event.
This falsifies the claim that the predicate is applied on every invocation. -/
theorem checkpath_shortcut_skips_veto_cex :
    (∀ name path loc, exEnvVeto.syncable name path loc = false) ∧
    (checkpath exEnvVeto (syncInit [1]) (some 0) [1, 0, 10] (some [10])).2 = some 1 ∧
    (alookup 1 (checkpath exEnvVeto (syncInit [1]) (some 0) [1, 0, 10]
      (some [10])).1.nodes).map LocalNode.ntype = some Nodetype.FILENODE ∧
    (checkpath exEnvVeto (syncInit [1]) (some 0) [1, 0, 10] (some [10])).1.events =
      [Event.fileAddition [1, 0, 10]] := by
  refine ⟨fun name path loc => rfl, ?_, ?_, ?_⟩ <;> decide

/-- C8 (amended): on every change-detector invocation that resolves the path
itself (no explicit last-component name), the syncability predicate is
applied to the unmatched component name and a veto aborts the invocation
with no result, no state change of any kind, and no error. -/
theorem checkpath_veto_aborts (env : Env) (st : SyncState) (l : Option Nat)
    (lp : List Nat) (l0 par : Option Nat) (nn : List Nat)
    (hres : localnodebypath env st l lp = (l0, par, nn))
    (hnotinv : ¬(l0 = none ∧ nn = []))
    (hveto : env.syncable (env.local2name nn) (cpTmppath env st l lp) nn = false) :
    checkpath env st l lp none = (st, none) := by
  simp [checkpath, checkpathPre, hres, hnotinv, hveto]

theorem checkpath_veto_aborts_witness :
    checkpath exEnvVeto (syncInit [1]) none [1, 0, 10] none = (syncInit [1], none) :=
  checkpath_veto_aborts exEnvVeto (syncInit [1]) none [1, 0, 10]
    none (some 0) [10] (by decide) (by decide) rfl

/-! ### C1 -/

/-- C1: code_bug evidence.  The filesystem reports the root path [1] as a
FILE, and the spec (with the comment on line 300 of the source) requires the
controller to transition to SYNC_FAILED.  The code never does: checkpath on
the exact root path fails the root-prefix check of localnodebypath (the
prefix must be root name + separator, lines 84-88) and returns at line 224
with no state change, no node, no result; an invocation rooted at the root
node itself (l = root, empty relative path) aborts the same way.  The
changestate(SYNC_FAILED) call on line 300 is unreachable for the root since
it sits under the dispatch on the stored node type (line 289), which for the
root is always FOLDERNODE.  The controller stays in SYNC_INITIALSCAN. -/
theorem checkpath_root_file_no_failed :
    exEnvRootFile.fopen [1] = FopenRes.ok ⟨Nodetype.FILENODE, 10, 5, some 42⟩ ∧
    checkpath exEnvRootFile (syncInit [1]) none [1] none = (syncInit [1], none) ∧
    checkpath exEnvRootFile (syncInit [1]) (some 0) [] none = (syncInit [1], none) ∧
    (syncInit [1]).state = Syncstate.SYNC_INITIALSCAN ∧
    (checkpath exEnvRootFile (syncInit [1]) none [1] none).1.state ≠
      Syncstate.SYNC_FAILED := by
  refine ⟨rfl, ?_, ?_, rfl, ?_⟩ <;> decide

/-! ### C2 -/

/-- C2 counterexample: in exStMiss the tracked file node 1 already has
notseen = 1; one more permanent open failure on its path leaves the counter
at 1 — line 333 is setnotseen(1), a store of the constant 1, not an
increment — falsifying "increments its not-seen counter by exactly 1",
which would require 2 here. -/
theorem checkpath_perm_sets_one_cex :
    (alookup 1 exStMiss.nodes).map LocalNode.notseen = some 1 ∧
    (alookup 1 (checkpath exEnvPerm exStMiss none [1, 0, 10] none).1.nodes).map
      LocalNode.notseen = some 1 ∧
    (alookup 1 (checkpath exEnvPerm exStMiss none [1, 0, 10] none).1.nodes).map
      LocalNode.notseen ≠ some 2 := by
  refine ⟨?_, ?_, ?_⟩ <;> decide

/-- C2 (amended): a permanent open failure on a path matched by a tracked
node sets the node's not-seen counter to exactly 1 (so a single failure from
the just-seen state 0 raises it by exactly 1, and repeated failures leave it
at 1), cancels any active outgoing transfer, flags sync activity, keeps the
node tracked, leaves the byte total alone, emits nothing, and produces no
result. -/
theorem checkpath_perm_tracked (env : Env) (st : SyncState) (l : Option Nat)
    (lp : List Nat) (ln : Option (List Nat)) (p : PreInfo) (id : Nat) (nd : LocalNode)
    (hpre : checkpathPre env st l lp ln = some p)
    (hl0 : p.l0 = some id)
    (hnd : alookup id st.nodes = some nd)
    (hopen : env.fopen p.target = FopenRes.perm) :
    (checkpath env st l lp ln).2 = none ∧
    alookup id (checkpath env st l lp ln).1.nodes =
      some { nd with notseen := 1, hasTransfer := false } ∧
    (checkpath env st l lp ln).1.syncactivity = true ∧
    (checkpath env st l lp ln).1.nodes.length = st.nodes.length ∧
    (checkpath env st l lp ln).1.localbytes = st.localbytes ∧
    (checkpath env st l lp ln).1.events = st.events := by
  have hgn : getNode st id = nd := by simp [getNode, hnd]
  by_cases ht : nd.hasTransfer
  · refine ⟨?_, ?_, ?_, ?_, ?_, ?_⟩ <;>
      simp [checkpath, hpre, hopen, hl0, hgn, ht, setnotseen, stopxfer,
        alookup_updateNode, hnd]
  · refine ⟨?_, ?_, ?_, ?_, ?_, ?_⟩ <;>
      simp only [checkpath, hpre, hopen, hl0, hgn, ht, setnotseen, stopxfer,
        alookup_updateNode, hnd, if_false, if_pos rfl, Bool.false_eq_true,
        updateNode_localbytes, updateNode_events, updateNode_nodes_length] <;>
      first
        | rfl
        | (cases nd with
           | mk =>
             simp_all)

theorem checkpath_perm_tracked_witness :
    (checkpath exEnvPerm exStA none [1, 0, 10] none).2 = none ∧
    alookup 1 (checkpath exEnvPerm exStA none [1, 0, 10] none).1.nodes =
      some { ntype := Nodetype.FILENODE, localname := [10], parent := some 0,
             children := [], schildren := [], fsid := 42, fsidRegistered := true,
             notseen := 1, scanseq := 0, size := 10, mtime := 5,
             hasTransfer := false, syncid := 1 } ∧
    (checkpath exEnvPerm exStA none [1, 0, 10] none).1.syncactivity = true :=
  have h := checkpath_perm_tracked exEnvPerm exStA none [1, 0, 10] none
    ⟨false, some 0, some 1, [1, 0, 10], [1, 0, 10], []⟩ 1
    { ntype := Nodetype.FILENODE, localname := [10], parent := some 0,
      children := [], schildren := [], fsid := 42, fsidRegistered := true,
      notseen := 0, scanseq := 0, size := 10, mtime := 5,
      hasTransfer := false, syncid := 1 }
    (by decide) rfl (by decide) rfl
  ⟨h.1, h.2.1, h.2.2.1⟩

/-! ### C4 -/

theorem checkpathPre_isroot_false (env : Env) (st : SyncState) (l : Option Nat)
    (lp : List Nat) (ln : Option (List Nat)) (p : PreInfo)
    (hpre : checkpathPre env st l lp ln = some p) (hl0 : p.l0 = none) :
    p.isroot = false := by
  cases ln with
  | some nm =>
    simp only [checkpathPre, Option.some.injEq] at hpre
    rw [← hpre]
  | none =>
    simp only [checkpathPre] at hpre
    split at hpre
    · exact absurd hpre (by simp)
    · split at hpre
      · simp only [Option.some.injEq] at hpre
        rw [← hpre] at hl0 ⊢
        simp only [] at hl0 ⊢
        simp [hl0]
      · exact absurd hpre (by simp)

theorem alookup_setnameparent_self (st : SyncState) (mid : Nat) (np : Option Nat)
    (frag : List Nat) (mnd : LocalNode)
    (hm : alookup mid st.nodes = some mnd)
    (h1 : mnd.parent ≠ some mid) (h2 : np ≠ some mid) :
    alookup mid (setnameparent st mid np frag).nodes =
      some { mnd with parent := np, localname := frag } := by
  have hgn : getNode st mid = mnd := by simp [getNode, hm]
  unfold setnameparent
  rw [hgn]
  cases hpar : mnd.parent with
  | none =>
    cases hnp : np with
    | none => simp [alookup_updateNode, hm]
    | some v =>
      have hv : ¬ mid = v := fun hh => h2 (by rw [hnp, hh])
      simp [alookup_updateNode, hm, hv]
  | some op =>
    have hopne : ¬ mid = op := fun hh => h1 (by rw [hpar, hh])
    cases hnp : np with
    | none => simp [alookup_updateNode, hm, hopne]
    | some v =>
      have hv : ¬ mid = v := fun hh => h2 (by rw [hnp, hh])
      simp [alookup_updateNode, hm, hopne, hv]

theorem setnameparent_events (st : SyncState) (mid : Nat) (np : Option Nat)
    (frag : List Nat) : (setnameparent st mid np frag).events = st.events := by
  unfold setnameparent
  split <;> split <;> simp

theorem setnameparent_length (st : SyncState) (mid : Nat) (np : Option Nat)
    (frag : List Nat) :
    (setnameparent st mid np frag).nodes.length = st.nodes.length := by
  unfold setnameparent
  split <;> split <;> simp

theorem setnameparent_nextId (st : SyncState) (mid : Nat) (np : Option Nat)
    (frag : List Nat) : (setnameparent st mid np frag).nextId = st.nextId := by
  unfold setnameparent
  split <;> split <;> simp

theorem setnameparent_localbytes (st : SyncState) (mid : Nat) (np : Option Nat)
    (frag : List Nat) : (setnameparent st mid np frag).localbytes = st.localbytes := by
  unfold setnameparent
  split <;> split <;> simp

/-- C4: when no tracked node matched the path but the opened entry carries a
valid filesystem identity already registered in the process-wide index, the
indexed node is re-parented to the resolved parent under the resolved
fragment with its not-seen counter cleared, exactly one move notification is
emitted, no node is created or destroyed (node count and the id allocator are
unchanged), and the tracked-byte total is unchanged. -/
theorem checkpath_move_effects (env : Env) (st : SyncState) (l : Option Nat)
    (lp : List Nat) (p : PreInfo) (fa : FaInfo) (f mid : Nat) (mnd : LocalNode)
    (hpre : checkpathPre env st l lp none = some p)
    (hl0 : p.l0 = none)
    (hopen : env.fopen p.target = FopenRes.ok fa)
    (hfsid : fa.fsid = some f)
    (hidx : alookup f st.fsidnode = some mid)
    (hmnd : alookup mid st.nodes = some mnd)
    (hop : mnd.parent ≠ some mid)
    (hnp : p.parent ≠ some mid) :
    (checkpath env st l lp none).2 = none ∧
    alookup mid (checkpath env st l lp none).1.nodes =
      some { mnd with parent := p.parent, localname := p.fragment, notseen := 0 } ∧
    (checkpath env st l lp none).1.events =
      st.events ++ [Event.localMove mnd.localname p.path] ∧
    (checkpath env st l lp none).1.nodes.length = st.nodes.length ∧
    (checkpath env st l lp none).1.nextId = st.nextId ∧
    (checkpath env st l lp none).1.localbytes = st.localbytes := by
  have hroot := checkpathPre_isroot_false env st l lp none p hpre hl0
  have hgn : getNode st mid = mnd := by simp [getNode, hmnd]
  have hcp : checkpath env st l lp none =
      (setnotseen (setnameparent (emit (Event.localMove mnd.localname p.path) st)
        mid p.parent p.fragment) mid 0, none) := by
    simp [checkpath, hpre, hopen, cpStage1, hroot, hl0, hfsid, hidx, cpStage2,
      cpFinish, hgn]
  rw [hcp]
  have hme : alookup mid (emit (Event.localMove mnd.localname p.path) st).nodes =
      some mnd := by simp [hmnd]
  have hsp := alookup_setnameparent_self
    (emit (Event.localMove mnd.localname p.path) st) mid p.parent p.fragment mnd
    hme hop hnp
  refine ⟨rfl, ?_, ?_, ?_, ?_, ?_⟩
  · simp [setnotseen, alookup_updateNode, hsp]
  · simp [setnotseen, setnameparent_events]
  · simp [setnotseen, setnameparent_length]
  · simp [setnotseen, setnameparent_nextId]
  · simp [setnotseen, setnameparent_localbytes]

theorem checkpath_move_effects_witness :
    (checkpath exEnvB exStB none [1, 0, 20, 0, 11] none).2 = none ∧
    alookup 1 (checkpath exEnvB exStB none [1, 0, 20, 0, 11] none).1.nodes =
      some { ntype := Nodetype.FILENODE, localname := [11], parent := some 2,
             children := [], schildren := [], fsid := 42, fsidRegistered := true,
             notseen := 0, scanseq := 0, size := 10, mtime := 5,
             hasTransfer := false, syncid := 1 } ∧
    (checkpath exEnvB exStB none [1, 0, 20, 0, 11] none).1.events =
      exStB.events ++ [Event.localMove [10] [1, 0, 20, 0, 11]] ∧
    (checkpath exEnvB exStB none [1, 0, 20, 0, 11] none).1.localbytes =
      exStB.localbytes :=
  have h := checkpath_move_effects exEnvB exStB none [1, 0, 20, 0, 11]
    ⟨false, some 2, none, [1, 0, 20, 0, 11], [1, 0, 20, 0, 11], [11]⟩
    ⟨Nodetype.FILENODE, 10, 5, some 42⟩ 42 1
    { ntype := Nodetype.FILENODE, localname := [10], parent := some 0,
      children := [], schildren := [], fsid := 42, fsidRegistered := true,
      notseen := 0, scanseq := 0, size := 10, mtime := 5,
      hasTransfer := false, syncid := 1 }
    (by decide) rfl (by decide) rfl (by decide) (by decide) (by decide) (by decide)
  ⟨h.1, h.2.1, h.2.2.1, h.2.2.2.2.2⟩

/-! ### C3 -/

/-- C3 counterexample: the rename of file a ([1,0,10], identity 42) to
[1,0,20,0,11] completes as a move (the move notification is emitted and the
node is re-parented), the path is a trackable entry, yet the change detector
returns none — the move branch of lines 262-274 never assigns the result
variable.  This falsifies "for every invocation that completes (new entry,
move, or refresh of an existing entry), it returns the resulting node". -/
theorem checkpath_move_returns_none_cex :
    (checkpath exEnvB exStB none [1, 0, 20, 0, 11] none).1.events =
      exStB.events ++ [Event.localMove [10] [1, 0, 20, 0, 11]] ∧
    (alookup 1 (checkpath exEnvB exStB none [1, 0, 20, 0, 11] none).1.nodes).map
      LocalNode.parent = some (some 2) ∧
    (checkpath exEnvB exStB none [1, 0, 20, 0, 11] none).2 = none := by
  refine ⟨?_, ?_, ?_⟩ <;> decide

theorem cpStage2_result_new (env : Env) (st : SyncState) (p : PreInfo)
    (fa : FaInfo) (id : Nat) (hroot : p.isroot = false) :
    (cpStage2 env st p fa (some id) true).2.1 = some id := by
  unfold cpStage2
  by_cases hnt : (getNode st id).ntype = Nodetype.FOLDERNODE
  · simp [hnt]
  · simp [hnt, hroot]

theorem cpStage2_result_old (env : Env) (st : SyncState) (p : PreInfo)
    (fa : FaInfo) (id : Nat) (hroot : p.isroot = false) :
    (cpStage2 env st p fa (some id) false).2.1 =
      if (getNode st id).ntype = Nodetype.FOLDERNODE then none else some id := by
  unfold cpStage2
  by_cases hnt : (getNode st id).ntype = Nodetype.FOLDERNODE
  · simp [hnt]
  · simp [hnt, hroot]

theorem setnotseen_fsidnode (st : SyncState) (id n : Nat) :
    (setnotseen st id n).fsidnode = st.fsidnode := rfl

theorem getNode_ntype_updateNode (st : SyncState) (j id : Nat)
    (f : LocalNode → LocalNode) (h : ∀ nd, (f nd).ntype = nd.ntype) :
    (getNode (updateNode st j f) id).ntype = (getNode st id).ntype := by
  unfold getNode
  rw [alookup_updateNode]
  by_cases hj : id = j
  · rw [if_pos hj]
    cases hnd : alookup id st.nodes with
    | none => rfl
    | some nd => simp [h nd]
  · rw [if_neg hj]

theorem getNode_ntype_cpRefresh (st : SyncState) (j id : Nat) :
    (getNode (cpRefresh st j) id).ntype = (getNode st id).ntype :=
  (getNode_ntype_updateNode (setnotseen st j 0) j id
      (fun n => { n with scanseq := (setnotseen st j 0).scanseqno })
      (fun _ => rfl)).trans
    (getNode_ntype_updateNode st j id
      (fun nd => { nd with notseen := 0 }) (fun _ => rfl))

theorem getNode_ntype_setfsid (st : SyncState) (j id f : Nat) :
    (getNode (setfsid st j f) id).ntype = (getNode st id).ntype :=
  getNode_ntype_updateNode
    { st with fsidnode := (f, j) :: st.fsidnode.filter (fun e => e.1 ≠ f ∧ e.2 ≠ j) }
    j id (fun nd => { nd with fsid := f, fsidRegistered := true }) (fun _ => rfl)

/-- C3 (amended): the change detector returns the resulting node exactly
when it created a new entry (a fresh file or folder node, including creation
after a filesystem-identity mismatch invalidated the matched node and the
identity is absent from the index) or when the path resolved to a tracked
node whose stored kind is FILE (normally refreshed; in the dead root-as-FILE
branch the controller fails and the node is still returned); it returns none
for every completed move/rename (identity found in the index, whether the
path was unmatched or the match was invalidated by an identity mismatch),
for a refresh of an existing folder, for untrackable or vetoed paths, and
for open failures.  The case tree below covers every invocation: failed
preamble; transient and permanent open failures; and, under an open success,
the root shortcut, the matched-node branches (identity mismatch resolving as
move or creation, and plain refresh) and the unmatched branches (move via
the identity index, and creation). -/
theorem checkpath_result_cases (env : Env) (st : SyncState) (l : Option Nat)
    (lp : List Nat) (ln : Option (List Nat)) :
    (checkpathPre env st l lp ln = none → (checkpath env st l lp ln).2 = none) ∧
    (∀ p, checkpathPre env st l lp ln = some p →
      (env.fopen p.target = FopenRes.transient →
        (checkpath env st l lp ln).2 = none) ∧
      (env.fopen p.target = FopenRes.perm →
        (checkpath env st l lp ln).2 = none) ∧
      (∀ fa, env.fopen p.target = FopenRes.ok fa →
        (p.isroot = true →
          (checkpath env st l lp ln).2 =
            (match p.l0 with
             | none => none
             | some id =>
               if (getNode st id).ntype = Nodetype.FOLDERNODE then none
               else some id)) ∧
        (p.isroot = false →
          (∀ id, p.l0 = some id →
            (∀ f, fa.fsid = some f →
              ((fa.ftype = Nodetype.FILENODE ∧
                  (getNode st id).fsidRegistered = true ∧
                  (getNode st id).fsid ≠ f) →
                (∀ mid, alookup f st.fsidnode = some mid →
                  (checkpath env st l lp ln).2 = none) ∧
                (alookup f st.fsidnode = none →
                  (checkpath env st l lp ln).2 = some st.nextId)) ∧
              (¬(fa.ftype = Nodetype.FILENODE ∧
                  (getNode st id).fsidRegistered = true ∧
                  (getNode st id).fsid ≠ f) →
                (checkpath env st l lp ln).2 =
                  if (getNode st id).ntype = Nodetype.FOLDERNODE then none
                  else some id)) ∧
            (fa.fsid = none →
              (checkpath env st l lp ln).2 =
                if (getNode st id).ntype = Nodetype.FOLDERNODE then none
                else some id)) ∧
          (p.l0 = none →
            (∀ f mid, fa.fsid = some f → alookup f st.fsidnode = some mid →
              (checkpath env st l lp ln).2 = none) ∧
            ((∀ f, fa.fsid = some f → alookup f st.fsidnode = none) →
              (checkpath env st l lp ln).2 = some st.nextId))))) := by
  refine ⟨?_, ?_⟩
  · intro hpre
    simp [checkpath, hpre]
  · intro p hpre
    refine ⟨?_, ?_, ?_⟩
    · intro hopen
      simp [checkpath, hpre, hopen]
    · intro hopen
      cases hl0 : p.l0 <;> simp [checkpath, hpre, hopen, hl0]
    · intro fa hopen
      have hres : (checkpath env st l lp ln).2 =
          (cpStage2 env (cpStage1 env st p fa).1 p fa
            (cpStage1 env st p fa).2.1 (cpStage1 env st p fa).2.2).2.1 := by
        simp [checkpath, hpre, hopen]
      refine ⟨?_, ?_⟩
      · intro hroot
        have hs1 : cpStage1 env st p fa = (st, p.l0, false) := by
          simp [cpStage1, hroot]
        rw [hres, hs1]
        cases hl0 : p.l0 with
        | none => rfl
        | some id =>
          by_cases hnt : (getNode st id).ntype = Nodetype.FOLDERNODE
          · simp [cpStage2, hnt]
          · simp [cpStage2, hnt, hroot]
      · intro hroot2
        refine ⟨?_, ?_⟩
        · intro id hl0
          refine ⟨?_, ?_⟩
          · intro f hfa
            refine ⟨?_, ?_⟩
            · intro hc
              refine ⟨?_, ?_⟩
              · intro mid hidx
                simp [checkpath, hpre, hopen, cpStage1, hroot2, hl0, hfa, hc,
                  setnotseen_fsidnode, hidx, cpStage2]
              · intro hidx
                have hs1 : cpStage1 env st p fa =
                    (setfsid
                       (allocNode (setnotseen st id ((getNode st id).notseen + 1))
                         fa.ftype p.parent p.fragment).1
                       (allocNode (setnotseen st id ((getNode st id).notseen + 1))
                         fa.ftype p.parent p.fragment).2 f,
                     some (allocNode (setnotseen st id ((getNode st id).notseen + 1))
                         fa.ftype p.parent p.fragment).2,
                     true) := by
                  simp [cpStage1, hroot2, hl0, hfa, hc, setnotseen_fsidnode, hidx]
                rw [hres, hs1]
                exact cpStage2_result_new env _ p fa st.nextId hroot2
            · intro hc
              have hs1 : cpStage1 env st p fa =
                  (cpRefresh (setfsid st id f) id, some id, false) := by
                simp [cpStage1, hroot2, hl0, hfa, hc]
              rw [hres, hs1]
              have h2 := cpStage2_result_old env (cpRefresh (setfsid st id f) id)
                p fa id hroot2
              rw [getNode_ntype_cpRefresh, getNode_ntype_setfsid] at h2
              exact h2
          · intro hfan
            have hs1 : cpStage1 env st p fa = (cpRefresh st id, some id, false) := by
              simp [cpStage1, hroot2, hl0, hfan]
            rw [hres, hs1]
            have h2 := cpStage2_result_old env (cpRefresh st id) p fa id hroot2
            rw [getNode_ntype_cpRefresh] at h2
            exact h2
        · intro hl0
          refine ⟨?_, ?_⟩
          · intro f mid hfa hidx
            simp [checkpath, hpre, hopen, cpStage1, hroot2, hl0, hfa, hidx, cpStage2]
          · intro hnone
            obtain ⟨stA, hs1⟩ :
                ∃ stA, cpStage1 env st p fa = (stA, some st.nextId, true) := by
              cases hfa : fa.fsid with
              | none =>
                refine ⟨(allocNode st fa.ftype p.parent p.fragment).1, ?_⟩
                simp [cpStage1, hroot2, hl0, hfa, allocNode]
              | some f =>
                refine ⟨setfsid (allocNode st fa.ftype p.parent p.fragment).1
                  (allocNode st fa.ftype p.parent p.fragment).2 f, ?_⟩
                simp [cpStage1, hroot2, hl0, hfa, hnone f hfa, allocNode]
            rw [hres, hs1]
            exact cpStage2_result_new env stA p fa st.nextId hroot2

/-- exEnvA with file a reporting a different filesystem identity (43 instead
of the tracked 42): triggers the fsid-mismatch invalidation branch. -/
def exEnvC : Env :=
  { exEnvA with fopen := fun p =>
      if p = [1, 0, 10] then FopenRes.ok ⟨Nodetype.FILENODE, 10, 5, some 43⟩
      else FopenRes.perm }

theorem checkpath_result_cases_witness :
    (checkpath exEnvB exStB none [1, 0, 20, 0, 11] none).2 = none ∧
    (checkpath exEnvA (syncInit [1]) none [1, 0, 10] none).2 = some 1 ∧
    (checkpath exEnvC exStA none [1, 0, 10] none).2 = some 2 :=
  ⟨(((((checkpath_result_cases exEnvB exStB none [1, 0, 20, 0, 11] none).2
      ⟨false, some 2, none, [1, 0, 20, 0, 11], [1, 0, 20, 0, 11], [11]⟩
      (by decide)).2.2 ⟨Nodetype.FILENODE, 10, 5, some 42⟩ (by decide)).2
      rfl).2 rfl).1 42 1 rfl (by decide),
   (((((checkpath_result_cases exEnvA (syncInit [1]) none [1, 0, 10] none).2
      ⟨false, some 0, none, [1, 0, 10], [1, 0, 10], [10]⟩
      (by decide)).2.2 ⟨Nodetype.FILENODE, 10, 5, some 42⟩ (by decide)).2
      rfl).2 rfl).2 (fun _ _ => rfl),
   (((((((checkpath_result_cases exEnvC exStA none [1, 0, 10] none).2
      ⟨false, some 0, some 1, [1, 0, 10], [1, 0, 10], []⟩
      (by decide)).2.2 ⟨Nodetype.FILENODE, 10, 5, some 43⟩ (by decide)).2
      rfl).1 1 rfl).1 43 rfl).1 (by decide)).2 (by decide)⟩

/-! ### C7 -/

theorem foldl_preserve {α σ : Type} (f : σ → α → σ) (P : σ → Prop)
    (h : ∀ s a, P s → P (f s a)) : ∀ (l : List α) (s : σ), P s → P (l.foldl f s) := by
  intro l
  induction l with
  | nil => intro s hs; exact hs
  | cons a rest ih =>
    intro s hs
    exact ih (f s a) (h s a hs)

theorem scan_scanseqno (env : Env) (st : SyncState) (lp : List Nat) :
    (scan env st lp).1.scanseqno = st.scanseqno := by
  unfold scan
  split
  · refine foldl_preserve _ (fun s => s.scanseqno = st.scanseqno) ?_ _ st rfl
    intro s a hs
    by_cases hc : env.syncable (env.local2name a) lp a
    · simp [hc, hs]
    · simp [hc, hs]
  · rfl

theorem applyOps_scanseqno (ops : List SyncOp) (st : SyncState) :
    (applyOps st ops).scanseqno = st.scanseqno := by
  unfold applyOps
  refine foldl_preserve _ (fun s => s.scanseqno = st.scanseqno) ?_ ops st rfl
  intro s a hs
  cases a <;> simp [applyOp, hs, emit]

theorem changestate_scanseqno (st : SyncState) (new : Syncstate) :
    (changestate st new).scanseqno = st.scanseqno :=
  applyOps_scanseqno _ st

theorem setnameparent_scanseqno (st : SyncState) (mid : Nat) (np : Option Nat)
    (frag : List Nat) : (setnameparent st mid np frag).scanseqno = st.scanseqno := by
  unfold setnameparent
  split <;> split <;> simp

theorem allocNode_scanseqno (st : SyncState) (t : Nodetype) (par : Option Nat)
    (frag : List Nat) : (allocNode st t par frag).1.scanseqno = st.scanseqno := by
  unfold allocNode
  split <;> simp

theorem cpStage1_scanseqno (env : Env) (st : SyncState) (p : PreInfo) (fa : FaInfo) :
    (cpStage1 env st p fa).1.scanseqno = st.scanseqno := by
  by_cases hroot : p.isroot = true
  · simp [cpStage1, hroot]
  · have hroot2 : p.isroot = false := by revert hroot; cases p.isroot <;> simp
    cases hl0 : p.l0 with
    | some id =>
      cases hfa : fa.fsid with
      | none => simp [cpStage1, hroot2, hl0, hfa, cpRefresh, setnotseen]
      | some f =>
        by_cases hc : fa.ftype = Nodetype.FILENODE ∧
            (getNode st id).fsidRegistered = true ∧ (getNode st id).fsid ≠ f
        · cases hidx : alookup f st.fsidnode with
          | some mid =>
            simp [cpStage1, hroot2, hl0, hfa, hc, setnotseen, hidx,
              setnameparent_scanseqno, emit]
          | none =>
            simp [cpStage1, hroot2, hl0, hfa, hc, setnotseen, hidx,
              allocNode_scanseqno, setfsid]
        · simp [cpStage1, hroot2, hl0, hfa, hc, cpRefresh, setnotseen, setfsid]
    | none =>
      cases hfa : fa.fsid with
      | none => simp [cpStage1, hroot2, hl0, hfa, allocNode_scanseqno]
      | some f =>
        cases hidx : alookup f st.fsidnode with
        | some mid =>
          simp [cpStage1, hroot2, hl0, hfa, hidx,
            setnameparent_scanseqno, setnotseen, emit]
        | none =>
          simp [cpStage1, hroot2, hl0, hfa, hidx, allocNode_scanseqno, setfsid]

theorem cpFileCore_scanseqno (env : Env) (st1 : SyncState) (p : PreInfo)
    (fa : FaInfo) (id : Nat) (newnode : Bool) :
    (cpFileCore env st1 p fa id newnode).1.scanseqno = st1.scanseqno := by
  simp [cpFileCore, genfingerprint, apply_ite SyncState.scanseqno]

theorem cpStage2_scanseqno (env : Env) (st : SyncState) (p : PreInfo) (fa : FaInfo)
    (l1 : Option Nat) (newnode : Bool) :
    (cpStage2 env st p fa l1 newnode).1.scanseqno = st.scanseqno := by
  cases l1 with
  | none => rfl
  | some id =>
    by_cases hnt : (getNode st id).ntype = Nodetype.FOLDERNODE
    · cases newnode with
      | true => simp [cpStage2, hnt, scan_scanseqno, emit]
      | false => simp [cpStage2, hnt]
    · by_cases hroot : p.isroot = true
      · simp [cpStage2, hnt, hroot, changestate_scanseqno]
      · have hroot2 : p.isroot = false := by revert hroot; cases p.isroot <;> simp
        simp [cpStage2, hnt, hroot2, cpFileRefresh, cpFileCore_scanseqno,
          apply_ite SyncState.scanseqno]

theorem cpFinish_scanseqno (st : SyncState) (l2 : Option Nat) (act : Bool) :
    (cpFinish st l2 act).scanseqno = st.scanseqno := by
  cases act with
  | false => rfl
  | true =>
    cases l2 with
    | none => rfl
    | some id => simp [cpFinish]

theorem checkpath_scanseqno (env : Env) (st : SyncState) (l : Option Nat)
    (lp : List Nat) (ln : Option (List Nat)) :
    (checkpath env st l lp ln).1.scanseqno = st.scanseqno := by
  cases hpre : checkpathPre env st l lp ln with
  | none => simp [checkpath, hpre]
  | some p =>
    cases hopen : env.fopen p.target with
    | ok fa =>
      simp [checkpath, hpre, hopen, cpFinish_scanseqno, cpStage2_scanseqno,
        cpStage1_scanseqno]
    | transient => simp [checkpath, hpre, hopen]
    | perm =>
      cases hl0 : p.l0 with
      | some id =>
        simp [checkpath, hpre, hopen, hl0, setnotseen, stopxfer,
          apply_ite SyncState.scanseqno]
      | none => simp [checkpath, hpre, hopen, hl0]

@[simp] theorem getq_syncactivity (st : SyncState) (q : Bool) (b : Bool) :
    getq { st with syncactivity := b } q = getq st q := by
  cases q <;> rfl

@[simp] theorem getq_scanseqno_set (st : SyncState) (q : Bool) (n : Nat) :
    getq { st with scanseqno := n } q = getq st q := by
  cases q <;> rfl

@[simp] theorem setq_scanseqno (st : SyncState) (q : Bool) (v : List NotifyEntry) :
    (setq st q v).scanseqno = st.scanseqno := by
  cases q <;> rfl

theorem procscanqLoop_scanseqno (env : Env) :
    ∀ (fuel : Nat) (st : SyncState) (q : Bool) (st' : SyncState),
      procscanqLoop env fuel st q = some st' → st'.scanseqno = st.scanseqno := by
  intro fuel
  induction fuel with
  | zero =>
    intro st q st' h
    simp only [procscanqLoop] at h
    split at h
    · exact (Option.some.inj h) ▸ rfl
    · exact absurd h (by simp)
  | succ fuel ih =>
    intro st q st' h
    simp only [procscanqLoop] at h
    split at h
    · exact (Option.some.inj h) ▸ rfl
    · rename_i e rest heq
      split at h
      · split at h
        · have := Option.some.inj h
          rw [← this]
          simp [checkpath_scanseqno]
        · have := ih _ _ _ h
          rw [this]
          simp [checkpath_scanseqno]
      · have := ih _ _ _ h
        rw [this]
        simp [checkpath_scanseqno]

/-- C7: whenever a queue-processor invocation completes (fuel suffices for
the drain loop), the scan-sweep sequence number advances by exactly 1 when
both notification queues are empty at the final observation point, and is
unchanged otherwise — in particular, draining one queue while the other is
non-empty never advances it, and no single invocation advances it by more
than 1. -/
theorem procscanq_scanseqno (env : Env) (fuel : Nat) (st : SyncState) (q : Bool)
    (st' : SyncState) (h : procscanq env fuel st q = some st') :
    st'.scanseqno =
      if getq st' q = [] ∧ getq st' (!q) = [] then st.scanseqno + 1
      else st.scanseqno := by
  unfold procscanq at h
  cases hloop : procscanqLoop env fuel st q with
  | none => rw [hloop] at h; exact absurd h (by simp)
  | some st1 =>
    rw [hloop] at h
    have hseq := procscanqLoop_scanseqno env fuel st q st1 hloop
    simp only [Option.some.injEq] at h
    cases q with
    | false =>
      by_cases h1 : st1.notifyq0 = []
      · by_cases h2 : st1.notifyq1 = []
        · rw [← h]; simp [getq, h1, h2, hseq]
        · rw [← h]; simp [getq, h1, h2, hseq]
      · rw [← h]; simp [getq, h1, hseq]
    | true =>
      by_cases h1 : st1.notifyq1 = []
      · by_cases h2 : st1.notifyq0 = []
        · rw [← h]; simp [getq, h1, h2, hseq]
        · rw [← h]; simp [getq, h1, h2, hseq]
      · rw [← h]; simp [getq, h1, hseq]

def exStQ : SyncState := { syncInit [1] with notifyq0 := [⟨none, [1, 0, 10]⟩] }

/-- Result state of draining exStQ: the file entry is processed, both queues
end empty, and the sweep number advances to 1. -/
def exStQr : SyncState := (procscanq exEnvA 2 exStQ false).getD (syncInit [1])

theorem procscanq_scanseqno_witness : exStQr.scanseqno = exStQ.scanseqno + 1 := by
  have h := procscanq_scanseqno exEnvA 2 exStQ false exStQr (by decide)
  rw [h]
  decide

/-! ### C9 -/

/-- Well-formedness of the tracked tree, decidable so that witnesses can
check it: parent indices strictly decrease (the arena allocates children
after parents), every child entry points back to a node whose parent link
and path fragment agree with the entry, the alias mappings are empty (the
amendment of C9), and the root exists with no parent. -/
def treeWFB (st : SyncState) : Bool :=
  st.nodes.all (fun e =>
    (match e.2.parent with
     | some p => decide (p < e.1)
     | none => true)
    && e.2.children.all (fun kc =>
      match alookup kc.2 st.nodes with
      | some cnd => decide (cnd.parent = some e.1) && decide (cnd.localname = kc.1)
      | none => false)
    && decide (e.2.schildren = []))
  && (match alookup st.rootId st.nodes with
      | some rnd => decide (rnd.parent = none)
      | none => false)

theorem treeWFB_node {st : SyncState} {id : Nat} {nd : LocalNode}
    (hwf : treeWFB st = true) (h : alookup id st.nodes = some nd) :
    (∀ p, nd.parent = some p → p < id) ∧
    (∀ k c, (k, c) ∈ nd.children →
      ∃ cnd, alookup c st.nodes = some cnd ∧ cnd.parent = some id ∧
        cnd.localname = k) ∧
    nd.schildren = [] := by
  have hmem := alookup_mem h
  simp only [treeWFB, Bool.and_eq_true, List.all_eq_true] at hwf
  have he := hwf.1 (id, nd) hmem
  obtain ⟨⟨hpar, hch⟩, hsch⟩ := he
  refine ⟨?_, ?_, ?_⟩
  · intro p hp
    rw [hp] at hpar
    exact of_decide_eq_true hpar
  · intro k c hkc
    have hb := hch (k, c) hkc
    cases hlc : alookup c st.nodes with
    | none => rw [hlc] at hb; exact absurd hb (by simp)
    | some cnd =>
      rw [hlc] at hb
      simp only [Bool.and_eq_true, decide_eq_true_eq] at hb
      exact ⟨cnd, rfl, hb.1, hb.2⟩
  · exact of_decide_eq_true hsch

theorem treeWFB_root {st : SyncState} (hwf : treeWFB st = true) :
    ∃ rnd, alookup st.rootId st.nodes = some rnd ∧ rnd.parent = none := by
  simp only [treeWFB, Bool.and_eq_true] at hwf
  have h := hwf.2
  cases hlr : alookup st.rootId st.nodes with
  | none => rw [hlr] at h; exact absurd h (by simp)
  | some rnd =>
    rw [hlr] at h
    exact ⟨rnd, rfl, of_decide_eq_true h⟩

theorem getlocalpath_child (sep : List Nat) (st : SyncState) {c pid : Nat}
    {cnd : LocalNode} (hc : alookup c st.nodes = some cnd)
    (hp : cnd.parent = some pid) (hlt : pid < c) :
    getlocalpath sep st c = getlocalpath sep st pid ++ sep ++ cnd.localname := by
  rw [getlocalpath_unfold]
  simp [hc, hp, hlt]

theorem getlocalpath_root (sep : List Nat) (st : SyncState) {id : Nat}
    {nd : LocalNode} (h : alookup id st.nodes = some nd) (hp : nd.parent = none) :
    getlocalpath sep st id = nd.localname := by
  rw [getlocalpath_unfold]
  simp [h, hp]

theorem childLookup_children {st : SyncState} {cur : Nat} {cnd : LocalNode}
    {comp : List Nat} {child : Nat}
    (hcur : alookup cur st.nodes = some cnd) (hsch : cnd.schildren = [])
    (hcl : childLookup st cur comp = some child) :
    (comp, child) ∈ cnd.children := by
  have hgn : getNode st cur = cnd := by simp [getNode, hcur]
  unfold childLookup at hcl
  rw [hgn, hsch] at hcl
  cases hlc : alookup comp cnd.children with
  | none => rw [hlc] at hcl; exact absurd hcl (by simp [alookup])
  | some c =>
    rw [hlc] at hcl
    simp only [Option.some.injEq] at hcl
    exact hcl ▸ alookup_mem hlc

theorem lnbpLoop_roundtrip (env : Env) (st : SyncState) (hwf : treeWFB st = true) :
    ∀ (N : Nat) (s : List Nat), s.length ≤ N → ∀ (cur : Nat) (cnd : LocalNode),
      alookup cur st.nodes = some cnd →
      (∀ n, (lnbpLoop env st cur s).1 = some n →
        (lnbpLoop env st cur s).2.2 = [] ∧
        getlocalpath env.sep st n = getlocalpath env.sep st cur ++ env.sep ++ s) ∧
      ((lnbpLoop env st cur s).1 = none →
        ∀ pid, (lnbpLoop env st cur s).2.1 = some pid →
          getlocalpath env.sep st pid ++ env.sep ++ (lnbpLoop env st cur s).2.2 =
            getlocalpath env.sep st cur ++ env.sep ++ s) := by
  intro N
  induction N with
  | zero =>
    intro s hs cur cnd hcur
    have hsnil : s = [] := List.length_eq_zero.mp (Nat.le_zero.mp hs)
    subst hsnil
    have hsc : scanChunk env.sepH env.sepT [] = ([], none) := rfl
    cases hcl : childLookup st cur [] with
    | none =>
      have hval : lnbpLoop env st cur [] = (none, some cur, []) := by
        rw [lnbpLoop_unfold, hsc]
        simp [hcl]
      rw [hval]
      refine ⟨?_, ?_⟩
      · intro n hn; exact absurd hn (by simp)
      · intro _ pid hpid
        simp only [Option.some.injEq] at hpid
        rw [hpid]
    | some child =>
      have hval : lnbpLoop env st cur [] = (some child, some cur, []) := by
        rw [lnbpLoop_unfold, hsc]
        simp [hcl]
      rw [hval]
      obtain ⟨_, hch, hsch⟩ := treeWFB_node hwf hcur
      have hmem := childLookup_children hcur hsch hcl
      obtain ⟨cnd2, hc2, hp2, hn2⟩ := hch [] child hmem
      have hlt : cur < child := (treeWFB_node hwf hc2).1 cur hp2
      refine ⟨?_, ?_⟩
      · intro n hn
        simp only [Option.some.injEq] at hn
        subst hn
        refine ⟨rfl, ?_⟩
        rw [getlocalpath_child env.sep st hc2 hp2 hlt, hn2]
      · intro hn; exact absurd hn (by simp)
  | succ N ih =>
    intro s hs cur cnd hcur
    cases hsc : scanChunk env.sepH env.sepT s with
    | mk comp orest =>
      have hdec := scanChunk_eq env.sepH env.sepT s
      rw [hsc] at hdec
      cases orest with
      | none =>
        simp only [Option.elim, List.append_nil] at hdec
        cases hcl : childLookup st cur comp with
        | none =>
          have hval : lnbpLoop env st cur s = (none, some cur, s) := by
            rw [lnbpLoop_unfold, hsc]
            simp [hcl]
          rw [hval]
          refine ⟨?_, ?_⟩
          · intro n hn; exact absurd hn (by simp)
          · intro _ pid hpid
            simp only [Option.some.injEq] at hpid
            rw [hpid]
        | some child =>
          have hval : lnbpLoop env st cur s = (some child, some cur, []) := by
            rw [lnbpLoop_unfold, hsc]
            simp [hcl]
          rw [hval]
          obtain ⟨_, hch, hsch⟩ := treeWFB_node hwf hcur
          have hmem := childLookup_children hcur hsch hcl
          obtain ⟨cnd2, hc2, hp2, hn2⟩ := hch comp child hmem
          have hlt : cur < child := (treeWFB_node hwf hc2).1 cur hp2
          refine ⟨?_, ?_⟩
          · intro n hn
            simp only [Option.some.injEq] at hn
            subst hn
            refine ⟨rfl, ?_⟩
            rw [getlocalpath_child env.sep st hc2 hp2 hlt, hn2, hdec]
          · intro hn; exact absurd hn (by simp)
      | some r =>
        simp only [Option.elim] at hdec
        cases hcl : childLookup st cur comp with
        | none =>
          have hval : lnbpLoop env st cur s = (none, some cur, s) := by
            rw [lnbpLoop_unfold, hsc]
            simp [hcl]
          rw [hval]
          refine ⟨?_, ?_⟩
          · intro n hn; exact absurd hn (by simp)
          · intro _ pid hpid
            simp only [Option.some.injEq] at hpid
            rw [hpid]
        | some child =>
          have hval : lnbpLoop env st cur s = lnbpLoop env st child r := by
            rw [lnbpLoop_unfold, hsc]
            simp [hcl]
          obtain ⟨_, hch, hsch⟩ := treeWFB_node hwf hcur
          have hmem := childLookup_children hcur hsch hcl
          obtain ⟨cnd2, hc2, hp2, hn2⟩ := hch comp child hmem
          have hlt : cur < child := (treeWFB_node hwf hc2).1 cur hp2
          have hchildpath : getlocalpath env.sep st child =
              getlocalpath env.sep st cur ++ env.sep ++ comp := by
            rw [getlocalpath_child env.sep st hc2 hp2 hlt, hn2]
          have hrlen : r.length ≤ N := by
            have := scanChunk_rest_lt hsc
            omega
          have hIH := ih r hrlen child cnd2 hc2
          rw [hval]
          have hpath : getlocalpath env.sep st child ++ env.sep ++ r =
              getlocalpath env.sep st cur ++ env.sep ++ s := by
            rw [hchildpath, hdec]
            show getlocalpath env.sep st cur ++ env.sep ++ comp ++ env.sep ++ r =
              getlocalpath env.sep st cur ++ env.sep ++ (comp ++ (env.sep ++ r))
            simp [List.append_assoc, Env.sep]
          refine ⟨?_, ?_⟩
          · intro n hn
            obtain ⟨hres, hpn⟩ := hIH.1 n hn
            exact ⟨hres, by rw [hpn, hpath]⟩
          · intro hn pid hpid
            have := hIH.2 hn pid hpid
            rw [this, hpath]

/-- C9 counterexample: exStAlias has file node 1 (canonical name [10],
canonical path [1,0,10]) registered in the root's alias mapping under the
short name [20].  The path P = [1,0,20] resolves (full match, empty residual)
through the alias mapping, but reconstructing the path from the returned
node gives its canonical path [1,0,10], not P — falsifying the exact
round-trip claimed for every resolvable path. -/
def exStAlias : SyncState :=
  { nodes := [
      (0, { ntype := Nodetype.FOLDERNODE, localname := [1], parent := none,
            children := [([10], 1)], schildren := [([20], 1)], fsid := 0,
            fsidRegistered := false, notseen := 0, scanseq := 0, size := -1,
            mtime := 0, hasTransfer := false, syncid := 0 }),
      (1, { ntype := Nodetype.FILENODE, localname := [10], parent := some 0,
            children := [], schildren := [], fsid := 0, fsidRegistered := false,
            notseen := 0, scanseq := 0, size := 10, mtime := 0,
            hasTransfer := false, syncid := 1 })],
    rootId := 0, nextId := 2, state := Syncstate.SYNC_ACTIVE, localbytes := 10,
    scanseqno := 0, notifyq0 := [], notifyq1 := [], fsidnode := [],
    syncadded := [], syncactivity := false, registered := true, events := [] }

theorem localnodebypath_alias_cex :
    localnodebypath exEnvA exStAlias none [1, 0, 20] = (some 1, some 0, []) ∧
    getlocalpath exEnvA.sep exStAlias 1 = [1, 0, 10] ∧
    getlocalpath exEnvA.sep exStAlias 1 ≠ [1, 0, 20] := by
  refine ⟨?_, ?_, ?_⟩ <;> decide

/-- C9 (amended): on any well-formed tree whose alias (short-name) mappings
are empty, resolution round-trips exactly: a full match returns the node
with a cleared residual and the node's reconstructed path equals P, and a
partial match returns the matched ancestor as parent together with the
residual (which starts at the first unmatched component), and the ancestor's
reconstructed path plus separator plus residual equals P.  (With a non-empty
alias mapping, a resolution through an alias reconstructs the node's
canonical path instead of P, see the counterexample.) -/
theorem localnodebypath_roundtrip (env : Env) (st : SyncState) (P : List Nat)
    (hwf : treeWFB st = true) :
    (∀ n, (localnodebypath env st none P).1 = some n →
      (localnodebypath env st none P).2.2 = [] ∧
      getlocalpath env.sep st n = P) ∧
    ((localnodebypath env st none P).1 = none →
      ∀ pid, (localnodebypath env st none P).2.1 = some pid →
        getlocalpath env.sep st pid ++ env.sep ++
          (localnodebypath env st none P).2.2 = P) := by
  obtain ⟨rnd, hr, hrp⟩ := treeWFB_root hwf
  have hgn : getNode st st.rootId = rnd := by simp [getNode, hr]
  have hrootpath : getlocalpath env.sep st st.rootId = rnd.localname :=
    getlocalpath_root env.sep st hr hrp
  unfold localnodebypath
  rw [hgn]
  by_cases hpre : (rnd.localname ++ env.sep).isPrefixOf P
  · rw [if_pos hpre]
    have hex : P = (rnd.localname ++ env.sep) ++
        P.drop (rnd.localname.length + env.sep.length) := by
      obtain ⟨t, ht⟩ := List.isPrefixOf_iff_prefix.mp hpre
      rw [← ht]
      congr 1
      have : (rnd.localname ++ env.sep).length =
          rnd.localname.length + env.sep.length := by simp
      rw [← this, List.drop_left]
    set rest := P.drop (rnd.localname.length + env.sep.length) with hrest
    have hloop := lnbpLoop_roundtrip env st hwf rest.length rest le_rfl
      st.rootId rnd hr
    refine ⟨?_, ?_⟩
    · intro n hn
      obtain ⟨hres, hpn⟩ := hloop.1 n hn
      refine ⟨hres, ?_⟩
      rw [hpn, hrootpath, hex]
    · intro hn pid hpid
      have := hloop.2 hn pid hpid
      rw [this, hrootpath, hex]
  · rw [if_neg hpre]
    refine ⟨?_, ?_⟩
    · intro n hn; exact absurd hn (by simp)
    · intro _ pid hpid; exact absurd hpid (by simp)

theorem localnodebypath_roundtrip_witness :
    treeWFB exStB = true ∧
    (localnodebypath exEnvA exStB none [1, 0, 10]).2.2 = [] ∧
    getlocalpath exEnvA.sep exStB 1 = [1, 0, 10] ∧
    getlocalpath exEnvA.sep exStB 0 ++ exEnvA.sep ++
      (localnodebypath exEnvA exStB none [1, 0, 30]).2.2 = [1, 0, 30] :=
  have h1 := (localnodebypath_roundtrip exEnvA exStB [1, 0, 10] (by decide)).1
    1 (by decide)
  have h2 := (localnodebypath_roundtrip exEnvA exStB [1, 0, 30] (by decide)).2
    (by decide) 0 (by decide)
  ⟨by decide, h1.1, h1.2, h2⟩

/-! ### C6 -/

/-- Contribution of one tracked node to the byte total: its fingerprint size
if it is a FILE, else nothing. -/
def contrib (e : Nat × LocalNode) : Int :=
  if e.2.ntype = Nodetype.FILENODE then e.2.size else 0

/-- Sum of the fingerprint sizes of all tracked FILE nodes of the sync. -/
def sumFileSizes (st : SyncState) : Int := (st.nodes.map contrib).sum

/-- The C6 state invariant, decidable: the byte total matches the sum, every
tracked FILE node has a computed (nonnegative) fingerprint size, node ids
are below the allocator and are pairwise distinct. -/
def sizeInvB (st : SyncState) : Bool :=
  decide (st.localbytes = sumFileSizes st)
  && st.nodes.all (fun e => decide (e.2.ntype = Nodetype.FILENODE → 0 ≤ e.2.size))
  && st.nodes.all (fun e => decide (e.1 < st.nextId))
  && decide ((st.nodes.map Prod.fst).Nodup)

theorem sum_contrib_mapUpdate (id : Nat) (f : LocalNode → LocalNode)
    (h : ∀ nd, (f nd).ntype = nd.ntype ∧ (f nd).size = nd.size) :
    ∀ (l : List (Nat × LocalNode)),
      ((l.map (fun e => if e.1 = id then (e.1, f e.2) else e)).map contrib).sum =
        (l.map contrib).sum := by
  intro l
  induction l with
  | nil => rfl
  | cons e rest ih =>
    simp only [List.map_cons, List.sum_cons]
    rw [ih]
    have hc : contrib (e.1, f e.2) = contrib e := by
      unfold contrib
      simp [(h e.2).1, (h e.2).2]
    by_cases he : e.1 = id
    · rw [if_pos he, hc]
    · rw [if_neg he]

theorem sumFileSizes_updateNode (st : SyncState) (id : Nat) (f : LocalNode → LocalNode)
    (h : ∀ nd, (f nd).ntype = nd.ntype ∧ (f nd).size = nd.size) :
    sumFileSizes (updateNode st id f) = sumFileSizes st :=
  sum_contrib_mapUpdate id f h st.nodes

theorem mapFst_mapUpdate (id : Nat) (f : LocalNode → LocalNode)
    (l : List (Nat × LocalNode)) :
    (l.map (fun e => if e.1 = id then (e.1, f e.2) else e)).map Prod.fst =
      l.map Prod.fst := by
  induction l with
  | nil => rfl
  | cons e rest ih =>
    simp only [List.map_cons, ih]
    by_cases he : e.1 = id <;> simp [he]

theorem alookup_none_of_not_mem {k : Nat} :
    ∀ {l : List (Nat × LocalNode)}, k ∉ l.map Prod.fst → alookup k l = none := by
  intro l
  induction l with
  | nil => intro _; rfl
  | cons e rest ih =>
    intro h
    simp only [List.map_cons, List.mem_cons] at h
    push_neg at h
    simp only [alookup]
    rw [if_neg (fun hh => h.1 hh.symm)]
    exact ih h.2

theorem sum_contrib_update_single (id : Nat) (f : LocalNode → LocalNode) :
    ∀ (l : List (Nat × LocalNode)) (nd : LocalNode),
      (l.map Prod.fst).Nodup → alookup id l = some nd →
      ((l.map (fun e => if e.1 = id then (e.1, f e.2) else e)).map contrib).sum =
        (l.map contrib).sum - contrib (id, nd) + contrib (id, f nd) := by
  intro l
  induction l with
  | nil => intro nd _ h; exact absurd h (by simp [alookup])
  | cons e rest ih =>
    intro nd hnodup hlk
    simp only [List.map_cons, List.nodup_cons] at hnodup
    simp only [alookup] at hlk
    by_cases he : e.1 = id
    · rw [if_pos he] at hlk
      simp only [Option.some.injEq] at hlk
      subst hlk
      have hnotin : id ∉ rest.map Prod.fst := he ▸ hnodup.1
      have hrest : rest.map (fun e => if e.1 = id then (e.1, f e.2) else e) = rest := by
        conv_rhs => rw [← List.map_id rest]
        apply List.map_congr_left
        intro a ha
        have : a.1 ≠ id := by
          intro hh
          exact hnotin (hh ▸ List.mem_map_of_mem Prod.fst ha)
        simp [this]
      simp only [List.map_cons, List.sum_cons, if_pos he, hrest]
      have hc1 : contrib (e.1, f e.2) = contrib (id, f e.2) := by rw [he]
      have hc2 : contrib e = contrib (id, e.2) := by
        rw [← he]
      rw [hc1, hc2]
      omega
    · rw [if_neg he] at hlk
      simp only [List.map_cons, List.sum_cons, if_neg he]
      rw [ih nd hnodup.2 hlk]
      omega

theorem sumFileSizes_eq_of_nodes {st1 st2 : SyncState}
    (h : st1.nodes = st2.nodes) : sumFileSizes st1 = sumFileSizes st2 := by
  unfold sumFileSizes
  rw [h]

theorem scan_nodes (env : Env) (st : SyncState) (lp : List Nat) :
    (scan env st lp).1.nodes = st.nodes := by
  unfold scan
  split
  · refine foldl_preserve _ (fun s => s.nodes = st.nodes) ?_ _ st rfl
    intro s a hs
    by_cases hc : env.syncable (env.local2name a) lp a <;> simp [hc, hs]
  · rfl

theorem scan_localbytes (env : Env) (st : SyncState) (lp : List Nat) :
    (scan env st lp).1.localbytes = st.localbytes := by
  unfold scan
  split
  · refine foldl_preserve _ (fun s => s.localbytes = st.localbytes) ?_ _ st rfl
    intro s a hs
    by_cases hc : env.syncable (env.local2name a) lp a <;> simp [hc, hs]
  · rfl

theorem changestate_nodes (st : SyncState) (new : Syncstate) :
    (changestate st new).nodes = st.nodes := by
  refine foldl_preserve _ (fun s => s.nodes = st.nodes) ?_ _ st rfl
  intro s a hs
  cases a <;> simp [applyOp, hs, emit]

theorem changestate_localbytes (st : SyncState) (new : Syncstate) :
    (changestate st new).localbytes = st.localbytes := by
  refine foldl_preserve _ (fun s => s.localbytes = st.localbytes) ?_ _ st rfl
  intro s a hs
  cases a <;> simp [applyOp, hs, emit]

theorem cpFinish_localbytes (st : SyncState) (l2 : Option Nat) (act : Bool) :
    (cpFinish st l2 act).localbytes = st.localbytes := by
  cases act with
  | false => rfl
  | true => cases l2 with
    | none => rfl
    | some id => simp [cpFinish]

theorem cpFinish_nodes (st : SyncState) (l2 : Option Nat) (act : Bool) :
    (cpFinish st l2 act).nodes = st.nodes := by
  cases act with
  | false => rfl
  | true => cases l2 with
    | none => rfl
    | some id => simp [cpFinish]

theorem sumFileSizes_setnotseen (st : SyncState) (id n : Nat) :
    sumFileSizes (setnotseen st id n) = sumFileSizes st :=
  sumFileSizes_updateNode st id _ (fun nd => ⟨rfl, rfl⟩)

theorem sumFileSizes_stopxfer (st : SyncState) (id : Nat) :
    sumFileSizes (stopxfer st id) = sumFileSizes st :=
  sumFileSizes_updateNode st id _ (fun nd => ⟨rfl, rfl⟩)

theorem sumFileSizes_setfsid (st : SyncState) (id f : Nat) :
    sumFileSizes (setfsid st id f) = sumFileSizes st :=
  sumFileSizes_updateNode
    { st with fsidnode := (f, id) :: st.fsidnode.filter (fun e => e.1 ≠ f ∧ e.2 ≠ id) }
    id (fun nd => { nd with fsid := f, fsidRegistered := true })
    (fun nd => ⟨rfl, rfl⟩)

theorem sumFileSizes_cpRefresh (st : SyncState) (id : Nat) :
    sumFileSizes (cpRefresh st id) = sumFileSizes st :=
  (sumFileSizes_updateNode (setnotseen st id 0) id
    (fun n => { n with scanseq := (setnotseen st id 0).scanseqno })
    (fun nd => ⟨rfl, rfl⟩)).trans (sumFileSizes_setnotseen st id 0)

theorem sumFileSizes_setnameparent (st : SyncState) (mid : Nat) (np : Option Nat)
    (frag : List Nat) :
    sumFileSizes (setnameparent st mid np frag) = sumFileSizes st := by
  unfold setnameparent
  cases hpar : (getNode st mid).parent with
  | none =>
    cases np with
    | none =>
      exact sumFileSizes_updateNode st mid
        (fun nd => { nd with parent := none, localname := frag })
        (fun nd => ⟨rfl, rfl⟩)
    | some v =>
      exact (sumFileSizes_updateNode
        (updateNode st mid (fun nd => { nd with parent := some v, localname := frag }))
        v (fun pn => { pn with
            children := (frag, mid) :: pn.children.filter (fun e => e.1 ≠ frag) })
        (fun nd => ⟨rfl, rfl⟩)).trans
        (sumFileSizes_updateNode st mid
          (fun nd => { nd with parent := some v, localname := frag })
          (fun nd => ⟨rfl, rfl⟩))
  | some op =>
    cases np with
    | none =>
      exact (sumFileSizes_updateNode
        (updateNode st op (fun pn => { pn with
          children := pn.children.filter (fun e => e.2 ≠ mid),
          schildren := pn.schildren.filter (fun e => e.2 ≠ mid) }))
        mid (fun nd => { nd with parent := none, localname := frag })
        (fun nd => ⟨rfl, rfl⟩)).trans
        (sumFileSizes_updateNode st op
          (fun pn => { pn with
            children := pn.children.filter (fun e => e.2 ≠ mid),
            schildren := pn.schildren.filter (fun e => e.2 ≠ mid) })
          (fun nd => ⟨rfl, rfl⟩))
    | some v =>
      exact ((sumFileSizes_updateNode
        (updateNode (updateNode st op (fun pn => { pn with
          children := pn.children.filter (fun e => e.2 ≠ mid),
          schildren := pn.schildren.filter (fun e => e.2 ≠ mid) }))
          mid (fun nd => { nd with parent := some v, localname := frag }))
        v (fun pn => { pn with
            children := (frag, mid) :: pn.children.filter (fun e => e.1 ≠ frag) })
        (fun nd => ⟨rfl, rfl⟩)).trans
        (sumFileSizes_updateNode
          (updateNode st op (fun pn => { pn with
            children := pn.children.filter (fun e => e.2 ≠ mid),
            schildren := pn.schildren.filter (fun e => e.2 ≠ mid) }))
          mid (fun nd => { nd with parent := some v, localname := frag })
          (fun nd => ⟨rfl, rfl⟩))).trans
        (sumFileSizes_updateNode st op
          (fun pn => { pn with
            children := pn.children.filter (fun e => e.2 ≠ mid),
            schildren := pn.schildren.filter (fun e => e.2 ≠ mid) })
          (fun nd => ⟨rfl, rfl⟩))

@[simp] theorem sumFileSizes_emit (ev : Event) (st : SyncState) :
    sumFileSizes (emit ev st) = sumFileSizes st := rfl

@[simp] theorem sumFileSizes_set_localbytes (st : SyncState) (y : Int) :
    sumFileSizes { st with localbytes := y } = sumFileSizes st := rfl

theorem contrib_initNode (st : SyncState) (t : Nodetype) (par : Option Nat)
    (frag : List Nat) :
    contrib (st.nextId, initNode st t par frag) =
      (if t = Nodetype.FILENODE then (-1 : Int) else 0) := by
  cases t <;> rfl

theorem allocNode_localbytes (st : SyncState) (t : Nodetype) (par : Option Nat)
    (frag : List Nat) : (allocNode st t par frag).1.localbytes = st.localbytes := by
  unfold allocNode
  cases par <;> simp

theorem allocNode_id (st : SyncState) (t : Nodetype) (par : Option Nat)
    (frag : List Nat) : (allocNode st t par frag).2 = st.nextId := rfl

theorem allocNode_keys (st : SyncState) (t : Nodetype) (par : Option Nat)
    (frag : List Nat) :
    (allocNode st t par frag).1.nodes.map Prod.fst =
      st.nextId :: st.nodes.map Prod.fst := by
  unfold allocNode
  cases par with
  | none => rfl
  | some pp =>
    exact (mapFst_mapUpdate pp
      (fun (pn : LocalNode) =>
        { pn with
          children := (frag, st.nextId) :: pn.children.filter (fun e2 => e2.1 ≠ frag) })
      (({ st with
          nodes := (st.nextId, initNode st t (some pp) frag) :: st.nodes,
          nextId := st.nextId + 1 } : SyncState).nodes)).trans rfl

theorem alookup_allocNode (st : SyncState) (t : Nodetype) (par : Option Nat)
    (frag : List Nat) :
    ∃ nd0, alookup st.nextId (allocNode st t par frag).1.nodes = some nd0 ∧
      nd0.ntype = t ∧ nd0.size = -1 := by
  unfold allocNode
  cases par with
  | none => exact ⟨initNode st t none frag, by simp [alookup], rfl, rfl⟩
  | some pp =>
    by_cases hpp : st.nextId = pp
    · refine ⟨{ initNode st t (some pp) frag with
        children := (frag, st.nextId) ::
          (initNode st t (some pp) frag).children.filter (fun e => e.1 ≠ frag) },
        ?_, rfl, rfl⟩
      rw [alookup_updateNode]
      simp [hpp, alookup]
    · refine ⟨initNode st t (some pp) frag, ?_, rfl, rfl⟩
      rw [alookup_updateNode]
      simp [hpp, alookup]

theorem sumFileSizes_allocNode (st : SyncState) (t : Nodetype) (par : Option Nat)
    (frag : List Nat) :
    sumFileSizes (allocNode st t par frag).1 =
      sumFileSizes st + (if t = Nodetype.FILENODE then (-1 : Int) else 0) := by
  have hcons : sumFileSizes { st with
      nodes := (st.nextId, initNode st t par frag) :: st.nodes,
      nextId := st.nextId + 1 } =
      sumFileSizes st + (if t = Nodetype.FILENODE then (-1 : Int) else 0) := by
    unfold sumFileSizes
    simp only [List.map_cons, List.sum_cons]
    rw [show (st.nodes.map contrib).sum = sumFileSizes st from rfl]
    rw [contrib_initNode]
    omega
  unfold allocNode
  cases par with
  | none => exact hcons
  | some pp =>
    exact (sumFileSizes_updateNode
      { st with
        nodes := (st.nextId, initNode st t (some pp) frag) :: st.nodes,
        nextId := st.nextId + 1 }
      pp (fun pn => { pn with
        children := (frag, st.nextId) :: pn.children.filter (fun e => e.1 ≠ frag) })
      (fun nd => ⟨rfl, rfl⟩)).trans hcons

theorem genfingerprint_localbytes (st : SyncState) (id : Nat) (fa : FaInfo) :
    (genfingerprint st id fa).1.localbytes = st.localbytes := rfl

theorem sumFileSizes_genfingerprint (st : SyncState) (id : Nat) (fa : FaInfo)
    (nd : LocalNode) (hnodup : (st.nodes.map Prod.fst).Nodup)
    (hlk : alookup id st.nodes = some nd) :
    sumFileSizes (genfingerprint st id fa).1 =
      sumFileSizes st - contrib (id, nd) +
        contrib (id, { nd with size := fa.size, mtime := fa.mtime }) :=
  sum_contrib_update_single id
    (fun n => { n with size := fa.size, mtime := fa.mtime }) st.nodes nd hnodup hlk

theorem getNode_genfingerprint (st : SyncState) (id : Nat) (fa : FaInfo)
    (nd : LocalNode) (hlk : alookup id st.nodes = some nd) :
    getNode (genfingerprint st id fa).1 id =
      { nd with size := fa.size, mtime := fa.mtime } := by
  show getNode (updateNode st id _) id = _
  simp [getNode, alookup_updateNode, hlk]

theorem cpFileCore_compute (env : Env) (st1 : SyncState) (p : PreInfo)
    (fa : FaInfo) (id : Nat) (nd : LocalNode) (newnode : Bool)
    (hlk : alookup id st1.nodes = some nd)
    (hnodup : (st1.nodes.map Prod.fst).Nodup)
    (hft : nd.ntype = Nodetype.FILENODE) :
    (cpFileCore env st1 p fa id newnode).1.localbytes =
      st1.localbytes + (if fa.size > 0 then fa.size else 0) ∧
    sumFileSizes (cpFileCore env st1 p fa id newnode).1 =
      sumFileSizes st1 - nd.size + fa.size := by
  have hnd2 := getNode_genfingerprint st1 id fa nd hlk
  have hsum2 := sumFileSizes_genfingerprint st1 id fa nd hnodup hlk
  have hc1 : contrib (id, nd) = nd.size := by
    unfold contrib
    simp [hft]
  have hc2 : contrib (id, ({ nd with size := fa.size, mtime := fa.mtime } : LocalNode))
      = fa.size := by
    unfold contrib
    simp [hft]
  rw [hc1, hc2] at hsum2
  constructor
  · by_cases h2 : fa.size > 0 <;>
      simp [cpFileCore, hnd2, h2, genfingerprint_localbytes,
        apply_ite SyncState.localbytes]
  · by_cases h2 : fa.size > 0 <;>
      simp [cpFileCore, hnd2, h2, apply_ite sumFileSizes, hsum2]

theorem cpFileRefresh_compute (env : Env) (st : SyncState) (p : PreInfo)
    (fa : FaInfo) (id : Nat) (nd : LocalNode) (newnode : Bool)
    (hlk : alookup id st.nodes = some nd)
    (hnodup : (st.nodes.map Prod.fst).Nodup)
    (hft : nd.ntype = Nodetype.FILENODE) :
    (cpFileRefresh env st p fa id newnode).1.localbytes =
      st.localbytes - (if nd.size > 0 then nd.size else 0)
        + (if fa.size > 0 then fa.size else 0) ∧
    sumFileSizes (cpFileRefresh env st p fa id newnode).1 =
      sumFileSizes st - nd.size + fa.size := by
  have hgn : getNode st id = nd := by simp [getNode, hlk]
  by_cases h1 : nd.size > 0
  · have hcore := cpFileCore_compute env
      { st with localbytes := st.localbytes - nd.size } p fa id nd newnode hlk hnodup hft
    have hval : cpFileRefresh env st p fa id newnode =
        cpFileCore env { st with localbytes := st.localbytes - nd.size } p fa id newnode := by
      simp only [cpFileRefresh, hgn, if_pos h1]
    rw [hval]
    refine ⟨?_, hcore.2⟩
    rw [hcore.1]
    simp [h1]
  · have hcore := cpFileCore_compute env st p fa id nd newnode hlk hnodup hft
    have hval : cpFileRefresh env st p fa id newnode =
        cpFileCore env st p fa id newnode := by
      simp only [cpFileRefresh, hgn, if_neg h1]
    rw [hval]
    refine ⟨?_, hcore.2⟩
    rw [hcore.1]
    simp [h1]

@[simp] theorem sumFileSizes_set_syncactivity (st : SyncState) (b : Bool) :
    sumFileSizes { st with syncactivity := b } = sumFileSizes st := rfl

@[simp] theorem sumFileSizes_set_notifyq1 (st : SyncState) (v : List NotifyEntry) :
    sumFileSizes { st with notifyq1 := v } = sumFileSizes st := rfl

theorem sizeInvB_spec (st : SyncState) (h : sizeInvB st = true) :
    st.localbytes = sumFileSizes st ∧
    (∀ e ∈ st.nodes, e.2.ntype = Nodetype.FILENODE → 0 ≤ e.2.size) ∧
    (∀ e ∈ st.nodes, e.1 < st.nextId) ∧
    (st.nodes.map Prod.fst).Nodup := by
  simp only [sizeInvB, Bool.and_eq_true, List.all_eq_true, decide_eq_true_eq] at h
  exact ⟨h.1.1.1, fun e he => h.1.1.2 e he, fun e he => h.1.2 e he, h.2⟩

theorem cpFinish_inv (st : SyncState) (l2 : Option Nat) (act : Bool)
    (h : st.localbytes = sumFileSizes st) :
    (cpFinish st l2 act).localbytes = sumFileSizes (cpFinish st l2 act) := by
  rw [cpFinish_localbytes, sumFileSizes_eq_of_nodes (cpFinish_nodes st l2 act)]
  exact h

theorem pos_if (x : Int) (h : 0 ≤ x) : (if x > 0 then x else 0) = x := by
  by_cases hx : x > 0
  · rw [if_pos hx]
  · rw [if_neg hx]
    omega

theorem updateNode_keys (st : SyncState) (id : Nat) (f : LocalNode → LocalNode) :
    (updateNode st id f).nodes.map Prod.fst = st.nodes.map Prod.fst :=
  mapFst_mapUpdate id f st.nodes

theorem setnotseen_keys (st : SyncState) (id n : Nat) :
    (setnotseen st id n).nodes.map Prod.fst = st.nodes.map Prod.fst :=
  mapFst_mapUpdate id (fun nd => { nd with notseen := n }) st.nodes

theorem setfsid_keys (st : SyncState) (id f : Nat) :
    (setfsid st id f).nodes.map Prod.fst = st.nodes.map Prod.fst :=
  mapFst_mapUpdate id (fun nd => { nd with fsid := f, fsidRegistered := true }) st.nodes

theorem cpRefresh_keys (st : SyncState) (id : Nat) :
    (cpRefresh st id).nodes.map Prod.fst = st.nodes.map Prod.fst :=
  (mapFst_mapUpdate id (fun n => { n with scanseq := (setnotseen st id 0).scanseqno })
    (setnotseen st id 0).nodes).trans (setnotseen_keys st id 0)

theorem setnameparent_keys (st : SyncState) (mid : Nat) (np : Option Nat)
    (frag : List Nat) :
    (setnameparent st mid np frag).nodes.map Prod.fst = st.nodes.map Prod.fst := by
  unfold setnameparent
  cases hpar : (getNode st mid).parent with
  | none =>
    cases np with
    | none => exact updateNode_keys st mid _
    | some v => exact (updateNode_keys _ v _).trans (updateNode_keys st mid _)
  | some op =>
    cases np with
    | none => exact (updateNode_keys _ mid _).trans (updateNode_keys st op _)
    | some v =>
      exact ((updateNode_keys _ v _).trans (updateNode_keys _ mid _)).trans
        (updateNode_keys st op _)

theorem alookup_cpRefresh (st : SyncState) (id : Nat) :
    alookup id (cpRefresh st id).nodes =
      (alookup id st.nodes).map
        (fun nd => { nd with notseen := 0, scanseq := st.scanseqno }) := by
  cases h : alookup id st.nodes with
  | none => simp [cpRefresh, setnotseen, alookup_updateNode, h]
  | some nd => simp [cpRefresh, setnotseen, alookup_updateNode, h]

theorem alookup_setfsid_self (st : SyncState) (id f : Nat) :
    alookup id (setfsid st id f).nodes =
      (alookup id st.nodes).map
        (fun nd => { nd with fsid := f, fsidRegistered := true }) := by
  cases h : alookup id st.nodes with
  | none => simp [setfsid, alookup_updateNode, h]
  | some nd => simp [setfsid, alookup_updateNode, h]

theorem nextId_not_mem_keys (st : SyncState)
    (hfr : ∀ e ∈ st.nodes, e.1 < st.nextId) :
    st.nextId ∉ st.nodes.map Prod.fst := by
  intro hmem
  obtain ⟨e, he, heq⟩ := List.mem_map.mp hmem
  have := hfr e he
  omega

theorem cpStage1_localbytes (env : Env) (st : SyncState) (p : PreInfo) (fa : FaInfo) :
    (cpStage1 env st p fa).1.localbytes = st.localbytes := by
  by_cases hroot : p.isroot = true
  · simp [cpStage1, hroot]
  · have hroot2 : p.isroot = false := by revert hroot; cases p.isroot <;> simp
    cases hl0 : p.l0 with
    | some id =>
      cases hfa : fa.fsid with
      | none => simp [cpStage1, hroot2, hl0, hfa, cpRefresh, setnotseen]
      | some f =>
        by_cases hc : fa.ftype = Nodetype.FILENODE ∧
            (getNode st id).fsidRegistered = true ∧ (getNode st id).fsid ≠ f
        · cases hidx : alookup f st.fsidnode with
          | some mid =>
            simp [cpStage1, hroot2, hl0, hfa, hc, setnotseen, hidx,
              setnameparent_localbytes, emit]
          | none =>
            simp [cpStage1, hroot2, hl0, hfa, hc, setnotseen, hidx,
              allocNode_localbytes, setfsid]
        · simp [cpStage1, hroot2, hl0, hfa, hc, cpRefresh, setnotseen, setfsid]
    | none =>
      cases hfa : fa.fsid with
      | none => simp [cpStage1, hroot2, hl0, hfa, allocNode_localbytes]
      | some f =>
        cases hidx : alookup f st.fsidnode with
        | some mid =>
          simp [cpStage1, hroot2, hl0, hfa, hidx,
            setnameparent_localbytes, setnotseen, emit]
        | none =>
          simp [cpStage1, hroot2, hl0, hfa, hidx, allocNode_localbytes, setfsid]

theorem sumFileSizes_cpStage1 (env : Env) (st : SyncState) (p : PreInfo) (fa : FaInfo) :
    sumFileSizes (cpStage1 env st p fa).1 =
      sumFileSizes st +
        (if (cpStage1 env st p fa).2.2 = true ∧ fa.ftype = Nodetype.FILENODE
          then -1 else 0) := by
  by_cases hroot : p.isroot = true
  · simp [cpStage1, hroot]
  · have hroot2 : p.isroot = false := by revert hroot; cases p.isroot <;> simp
    cases hl0 : p.l0 with
    | some id =>
      cases hfa : fa.fsid with
      | none =>
        simp [cpStage1, hroot2, hl0, hfa, sumFileSizes_cpRefresh]
      | some f =>
        by_cases hc : fa.ftype = Nodetype.FILENODE ∧
            (getNode st id).fsidRegistered = true ∧ (getNode st id).fsid ≠ f
        · cases hidx : alookup f st.fsidnode with
          | some mid =>
            simp [cpStage1, hroot2, hl0, hfa, hc, setnotseen_fsidnode, hidx,
              sumFileSizes_setnameparent, sumFileSizes_emit, sumFileSizes_setnotseen]
          | none =>
            simp [cpStage1, hroot2, hl0, hfa, hc, setnotseen_fsidnode, hidx,
              sumFileSizes_setfsid, sumFileSizes_allocNode, sumFileSizes_setnotseen]
        · simp [cpStage1, hroot2, hl0, hfa, hc, sumFileSizes_cpRefresh,
            sumFileSizes_setfsid]
    | none =>
      cases hfa : fa.fsid with
      | none => simp [cpStage1, hroot2, hl0, hfa, sumFileSizes_allocNode]
      | some f =>
        cases hidx : alookup f st.fsidnode with
        | some mid =>
          simp [cpStage1, hroot2, hl0, hfa, hidx, sumFileSizes_setnameparent,
            sumFileSizes_setnotseen, sumFileSizes_emit]
        | none =>
          simp [cpStage1, hroot2, hl0, hfa, hidx, sumFileSizes_setfsid,
            sumFileSizes_allocNode]
theorem setnotseen_nextId (st : SyncState) (id n : Nat) :
    (setnotseen st id n).nextId = st.nextId := rfl

theorem cpStage1_keys (env : Env) (st : SyncState) (p : PreInfo) (fa : FaInfo) :
    (cpStage1 env st p fa).1.nodes.map Prod.fst =
      (if (cpStage1 env st p fa).2.2 = true
        then st.nextId :: st.nodes.map Prod.fst
        else st.nodes.map Prod.fst) := by
  by_cases hroot : p.isroot = true
  · simp [cpStage1, hroot]
  · have hroot2 : p.isroot = false := by revert hroot; cases p.isroot <;> simp
    cases hl0 : p.l0 with
    | some id =>
      cases hfa : fa.fsid with
      | none =>
        simp [cpStage1, hroot2, hl0, hfa, cpRefresh_keys]
      | some f =>
        by_cases hc : fa.ftype = Nodetype.FILENODE ∧
            (getNode st id).fsidRegistered = true ∧ (getNode st id).fsid ≠ f
        · cases hidx : alookup f st.fsidnode with
          | some mid =>
            simp [cpStage1, hroot2, hl0, hfa, hc, setnotseen_fsidnode, hidx,
              setnotseen_keys, setnameparent_keys, emit_nodes]
          | none =>
            simp [cpStage1, hroot2, hl0, hfa, hc, setnotseen_fsidnode, hidx,
              setfsid_keys, allocNode_keys, setnotseen_keys, setnotseen_nextId]
        · simp [cpStage1, hroot2, hl0, hfa, hc, cpRefresh_keys, setfsid_keys]
    | none =>
      cases hfa : fa.fsid with
      | none => simp [cpStage1, hroot2, hl0, hfa, allocNode_keys]
      | some f =>
        cases hidx : alookup f st.fsidnode with
        | some mid =>
          simp [cpStage1, hroot2, hl0, hfa, hidx, setnotseen_keys,
            setnameparent_keys, emit_nodes]
        | none =>
          simp [cpStage1, hroot2, hl0, hfa, hidx, setfsid_keys, allocNode_keys]

theorem alookup_fresh_setfsid (st1 : SyncState) (t : Nodetype) (par : Option Nat)
    (frag : List Nat) (f : Nat) :
    ∃ nd0, alookup st1.nextId
        (setfsid (allocNode st1 t par frag).1 (allocNode st1 t par frag).2 f).nodes
        = some nd0 ∧ nd0.ntype = t ∧ nd0.size = -1 := by
  obtain ⟨nd0, hlk, hty, hsz⟩ := alookup_allocNode st1 t par frag
  refine ⟨{ nd0 with fsid := f, fsidRegistered := true }, ?_, hty, hsz⟩
  rw [allocNode_id, alookup_setfsid_self, hlk]
  rfl

theorem cpStage1_newnode (env : Env) (st : SyncState) (p : PreInfo) (fa : FaInfo)
    (h : (cpStage1 env st p fa).2.2 = true) :
    (cpStage1 env st p fa).2.1 = some st.nextId ∧
    ∃ nd0, alookup st.nextId (cpStage1 env st p fa).1.nodes = some nd0 ∧
      nd0.ntype = fa.ftype ∧ nd0.size = -1 := by
  by_cases hroot : p.isroot = true
  · simp [cpStage1, hroot] at h
  · have hroot2 : p.isroot = false := by revert hroot; cases p.isroot <;> simp
    cases hl0 : p.l0 with
    | some id =>
      cases hfa : fa.fsid with
      | none => simp [cpStage1, hroot2, hl0, hfa] at h
      | some f =>
        by_cases hc : fa.ftype = Nodetype.FILENODE ∧
            (getNode st id).fsidRegistered = true ∧ (getNode st id).fsid ≠ f
        · cases hidx : alookup f st.fsidnode with
          | some mid =>
            simp [cpStage1, hroot2, hl0, hfa, hc, setnotseen_fsidnode, hidx] at h
          | none =>
            have hs : cpStage1 env st p fa =
                (setfsid
                   (allocNode (setnotseen st id ((getNode st id).notseen + 1))
                     fa.ftype p.parent p.fragment).1
                   (allocNode (setnotseen st id ((getNode st id).notseen + 1))
                     fa.ftype p.parent p.fragment).2 f,
                 some (allocNode (setnotseen st id ((getNode st id).notseen + 1))
                     fa.ftype p.parent p.fragment).2,
                 true) := by
              simp [cpStage1, hroot2, hl0, hfa, hc, setnotseen_fsidnode, hidx]
            rw [hs]
            exact ⟨rfl, alookup_fresh_setfsid
              (setnotseen st id ((getNode st id).notseen + 1))
              fa.ftype p.parent p.fragment f⟩
        · simp [cpStage1, hroot2, hl0, hfa, hc] at h
    | none =>
      cases hfa : fa.fsid with
      | none =>
        have hs : cpStage1 env st p fa =
            ((allocNode st fa.ftype p.parent p.fragment).1,
             some (allocNode st fa.ftype p.parent p.fragment).2, true) := by
          simp [cpStage1, hroot2, hl0, hfa]
        rw [hs]
        exact ⟨rfl, alookup_allocNode st fa.ftype p.parent p.fragment⟩
      | some f =>
        cases hidx : alookup f st.fsidnode with
        | some mid => simp [cpStage1, hroot2, hl0, hfa, hidx] at h
        | none =>
          have hs : cpStage1 env st p fa =
              (setfsid (allocNode st fa.ftype p.parent p.fragment).1
                 (allocNode st fa.ftype p.parent p.fragment).2 f,
               some (allocNode st fa.ftype p.parent p.fragment).2, true) := by
            simp [cpStage1, hroot2, hl0, hfa, hidx]
          rw [hs]
          exact ⟨rfl, alookup_fresh_setfsid st fa.ftype p.parent p.fragment f⟩

theorem cpStage1_old (env : Env) (st : SyncState) (p : PreInfo) (fa : FaInfo)
    (id : Nat) (hroot2 : p.isroot = false)
    (hnn : (cpStage1 env st p fa).2.2 = false)
    (hl1 : (cpStage1 env st p fa).2.1 = some id) :
    (∃ nd ndR, alookup id st.nodes = some nd ∧
      alookup id (cpStage1 env st p fa).1.nodes = some ndR ∧
      ndR.ntype = nd.ntype ∧ ndR.size = nd.size) ∨
    alookup id (cpStage1 env st p fa).1.nodes = none := by
  cases hl0 : p.l0 with
  | none =>
    cases hfa : fa.fsid with
    | none => simp [cpStage1, hroot2, hl0, hfa] at hnn
    | some f =>
      cases hidx : alookup f st.fsidnode with
      | some mid => simp [cpStage1, hroot2, hl0, hfa, hidx] at hl1
      | none => simp [cpStage1, hroot2, hl0, hfa, hidx] at hnn
  | some j =>
    cases hfa : fa.fsid with
    | none =>
      have hs : cpStage1 env st p fa = (cpRefresh st j, some j, false) := by
        simp [cpStage1, hroot2, hl0, hfa]
      rw [hs] at hl1
      simp at hl1
      subst hl1
      rw [hs]
      rw [alookup_cpRefresh]
      cases hnd : alookup j st.nodes with
      | none => exact Or.inr rfl
      | some nd => exact Or.inl ⟨nd, _, rfl, rfl, rfl, rfl⟩
    | some f =>
      by_cases hc : fa.ftype = Nodetype.FILENODE ∧
          (getNode st j).fsidRegistered = true ∧ (getNode st j).fsid ≠ f
      · cases hidx : alookup f st.fsidnode with
        | some mid =>
          simp [cpStage1, hroot2, hl0, hfa, hc, setnotseen_fsidnode, hidx] at hl1
        | none =>
          simp [cpStage1, hroot2, hl0, hfa, hc, setnotseen_fsidnode, hidx] at hnn
      · have hs : cpStage1 env st p fa =
            (cpRefresh (setfsid st j f) j, some j, false) := by
          simp [cpStage1, hroot2, hl0, hfa, hc]
        rw [hs] at hl1
        simp at hl1
        subst hl1
        rw [hs]
        rw [alookup_cpRefresh, alookup_setfsid_self]
        cases hnd : alookup j st.nodes with
        | none => exact Or.inr rfl
        | some nd => exact Or.inl ⟨nd, _, rfl, rfl, rfl, rfl⟩
theorem cpStage2_inv (env : Env) (stA : SyncState) (p : PreInfo) (fa : FaInfo)
    (id : Nat) (nn : Bool) (ndA : LocalNode)
    (hroot2 : p.isroot = false)
    (hfas : 0 ≤ fa.size)
    (hAlk : alookup id stA.nodes = some ndA)
    (hAnodup : (stA.nodes.map Prod.fst).Nodup)
    (hAlb : stA.localbytes = sumFileSizes stA +
      (if nn = true ∧ ndA.ntype = Nodetype.FILENODE then 1 else 0))
    (hAnew : nn = true → ndA.size = -1)
    (hAold : nn = false → ndA.ntype = Nodetype.FILENODE → 0 ≤ ndA.size) :
    (cpStage2 env stA p fa (some id) nn).1.localbytes =
      sumFileSizes (cpStage2 env stA p fa (some id) nn).1 := by
  have hgn : getNode stA id = ndA := by simp [getNode, hAlk]
  cases hnt : ndA.ntype with
  | FOLDERNODE =>
    have hlb0 : stA.localbytes = sumFileSizes stA := by
      rw [hAlb]
      simp [hnt]
    cases nn with
    | true =>
      have hs : cpStage2 env stA p fa (some id) true =
          (emit (Event.folderAddition p.path) (scan env stA p.target).1,
           some id, false) := by
        simp [cpStage2, hgn, hnt]
      rw [hs]
      show (emit (Event.folderAddition p.path) (scan env stA p.target).1).localbytes
        = sumFileSizes (emit (Event.folderAddition p.path) (scan env stA p.target).1)
      rw [emit_localbytes, sumFileSizes_emit, scan_localbytes,
        sumFileSizes_eq_of_nodes (scan_nodes env stA p.target)]
      exact hlb0
    | false =>
      have hs : cpStage2 env stA p fa (some id) false = (stA, none, false) := by
        simp [cpStage2, hgn, hnt]
      rw [hs]
      exact hlb0
  | FILENODE =>
    have hntF : (getNode stA id).ntype = Nodetype.FILENODE := by rw [hgn, hnt]
    have hs : cpStage2 env stA p fa (some id) nn =
        ((cpFileRefresh env stA p fa id nn).1, some id,
         (cpFileRefresh env stA p fa id nn).2) := by
      simp [cpStage2, hntF, hroot2]
    rw [hs]
    show (cpFileRefresh env stA p fa id nn).1.localbytes =
      sumFileSizes (cpFileRefresh env stA p fa id nn).1
    obtain ⟨hlbr, hsum⟩ := cpFileRefresh_compute env stA p fa id ndA nn hAlk hAnodup hnt
    rw [hlbr, hsum, hAlb]
    cases nn with
    | true =>
      have h1 : ndA.size = -1 := hAnew rfl
      rw [h1, pos_if fa.size hfas]
      simp [hnt]
    | false =>
      have h2 : 0 ≤ ndA.size := hAold rfl hnt
      rw [pos_if ndA.size h2, pos_if fa.size hfas]
      simp

/-- C6: after any change-detector invocation started in a consistent state
(byte total equal to the tracked FILE-size sum, computed nonnegative sizes,
fresh allocator, distinct ids) against a filesystem reporting nonnegative
sizes, the controller's tracked-byte total again equals the sum of the
fingerprint sizes of all tracked FILE nodes: the FILE branch subtracts the
old size before the fingerprint recomputation and adds the new size after
it, and every other branch leaves both quantities in step. -/
theorem checkpath_localbytes_invariant (env : Env) (st : SyncState)
    (l : Option Nat) (lp : List Nat) (ln : Option (List Nat))
    (hinv : sizeInvB st = true)
    (hfa : ∀ pth fa, env.fopen pth = FopenRes.ok fa → 0 ≤ fa.size) :
    (checkpath env st l lp ln).1.localbytes =
      sumFileSizes (checkpath env st l lp ln).1 := by
  obtain ⟨hlb, hsz, hfr, hnodup⟩ := sizeInvB_spec st hinv
  cases hpre : checkpathPre env st l lp ln with
  | none =>
    have hcp : (checkpath env st l lp ln).1 = st := by simp [checkpath, hpre]
    rw [hcp]
    exact hlb
  | some p =>
    cases hopen : env.fopen p.target with
    | transient =>
      have hcp : (checkpath env st l lp ln).1 =
          { st with notifyq1 := st.notifyq1 ++ [⟨l, lp⟩] } := by
        simp [checkpath, hpre, hopen]
      rw [hcp, sumFileSizes_set_notifyq1]
      exact hlb
    | perm =>
      cases hl0 : p.l0 with
      | none =>
        have hcp : (checkpath env st l lp ln).1 = st := by
          simp [checkpath, hpre, hopen, hl0]
        rw [hcp]
        exact hlb
      | some id =>
        have hcp : (checkpath env st l lp ln).1 =
            setnotseen
              { (if (getNode st id).hasTransfer then stopxfer st id else st) with
                syncactivity := true } id 1 := by
          simp [checkpath, hpre, hopen, hl0]
        rw [hcp, sumFileSizes_setnotseen, sumFileSizes_set_syncactivity]
        by_cases ht : (getNode st id).hasTransfer
        · rw [if_pos ht]
          show (stopxfer st id).localbytes = sumFileSizes (stopxfer st id)
          rw [sumFileSizes_stopxfer]
          show st.localbytes = sumFileSizes st
          exact hlb
        · rw [if_neg ht]
          exact hlb
    | ok fa =>
      have hfas : 0 ≤ fa.size := hfa p.target fa hopen
      have hcp1 : (checkpath env st l lp ln).1 =
          cpFinish
            (cpStage2 env (cpStage1 env st p fa).1 p fa
              (cpStage1 env st p fa).2.1 (cpStage1 env st p fa).2.2).1
            (cpStage2 env (cpStage1 env st p fa).1 p fa
              (cpStage1 env st p fa).2.1 (cpStage1 env st p fa).2.2).2.1
            ((cpStage2 env (cpStage1 env st p fa).1 p fa
              (cpStage1 env st p fa).2.1 (cpStage1 env st p fa).2.2).2.2
              || (cpStage1 env st p fa).2.2) := by
        simp [checkpath, hpre, hopen]
      rw [hcp1]
      refine cpFinish_inv _ _ _ ?_
      by_cases hroot : p.isroot = true
      · have hs1 : cpStage1 env st p fa = (st, p.l0, false) := by
          simp [cpStage1, hroot]
        rw [hs1]
        cases hl0 : p.l0 with
        | none => exact hlb
        | some id =>
          by_cases hnt : (getNode st id).ntype = Nodetype.FOLDERNODE
          · have hs2 : cpStage2 env st p fa (some id) false = (st, none, false) := by
              simp [cpStage2, hnt]
            rw [hs2]
            exact hlb
          · have hs2 : cpStage2 env st p fa (some id) false =
                (changestate st Syncstate.SYNC_FAILED, some id, false) := by
              simp [cpStage2, hnt, hroot]
            rw [hs2]
            show (changestate st Syncstate.SYNC_FAILED).localbytes =
              sumFileSizes (changestate st Syncstate.SYNC_FAILED)
            rw [changestate_localbytes,
              sumFileSizes_eq_of_nodes (changestate_nodes st Syncstate.SYNC_FAILED)]
            exact hlb
      · have hroot2 : p.isroot = false := by revert hroot; cases p.isroot <;> simp
        cases hl1 : (cpStage1 env st p fa).2.1 with
        | none =>
          have hnn : (cpStage1 env st p fa).2.2 = false := by
            cases hb : (cpStage1 env st p fa).2.2 with
            | false => rfl
            | true =>
              have hcon := (cpStage1_newnode env st p fa hb).1
              rw [hl1] at hcon
              cases hcon
          rw [hnn]
          show (cpStage1 env st p fa).1.localbytes =
            sumFileSizes (cpStage1 env st p fa).1
          rw [cpStage1_localbytes, sumFileSizes_cpStage1, hnn]
          simp
          exact hlb
        | some id =>
          cases hnn : (cpStage1 env st p fa).2.2 with
          | true =>
            obtain ⟨hl1n, nd0, hlk0, hty0, hsz0⟩ := cpStage1_newnode env st p fa hnn
            rw [hl1] at hl1n
            have hid : id = st.nextId := Option.some.inj hl1n
            subst hid
            have hkeys := cpStage1_keys env st p fa
            rw [hnn] at hkeys
            simp at hkeys
            have hnodupA : ((cpStage1 env st p fa).1.nodes.map Prod.fst).Nodup := by
              rw [hkeys]
              exact List.nodup_cons.mpr ⟨nextId_not_mem_keys st hfr, hnodup⟩
            have hlbA : (cpStage1 env st p fa).1.localbytes =
                sumFileSizes (cpStage1 env st p fa).1 +
                  (if true = true ∧ nd0.ntype = Nodetype.FILENODE then 1 else 0) := by
              rw [cpStage1_localbytes, sumFileSizes_cpStage1, hnn, hlb, hty0]
              cases hft : fa.ftype <;> simp [hft]
            exact cpStage2_inv env (cpStage1 env st p fa).1 p fa st.nextId true nd0
              hroot2 hfas hlk0 hnodupA hlbA (fun _ => hsz0)
              (fun hcon => Bool.noConfusion hcon)
          | false =>
            rcases cpStage1_old env st p fa id hroot2 hnn hl1 with
              ⟨nd, ndR, hnd, hndR, hty, hsz2⟩ | hnone
            · have hkeys := cpStage1_keys env st p fa
              rw [hnn] at hkeys
              simp at hkeys
              have hnodupA : ((cpStage1 env st p fa).1.nodes.map Prod.fst).Nodup := by
                rw [hkeys]
                exact hnodup
              have hlbA : (cpStage1 env st p fa).1.localbytes =
                  sumFileSizes (cpStage1 env st p fa).1 +
                    (if false = true ∧ ndR.ntype = Nodetype.FILENODE then 1 else 0) := by
                rw [cpStage1_localbytes, sumFileSizes_cpStage1, hnn, hlb]
                simp
              have hAold : false = false → ndR.ntype = Nodetype.FILENODE →
                  0 ≤ ndR.size := by
                intro _ hft
                rw [hsz2]
                exact hsz (id, nd) (alookup_mem hnd) (by rw [← hty]; exact hft)
              exact cpStage2_inv env (cpStage1 env st p fa).1 p fa id false ndR
                hroot2 hfas hndR hnodupA hlbA (fun hcon => Bool.noConfusion hcon) hAold
            · have hs2 : cpStage2 env (cpStage1 env st p fa).1 p fa (some id) false =
                  ((cpStage1 env st p fa).1, none, false) := by
                simp [cpStage2, getNode, hnone]
              rw [hs2]
              show (cpStage1 env st p fa).1.localbytes =
                sumFileSizes (cpStage1 env st p fa).1
              rw [cpStage1_localbytes, sumFileSizes_cpStage1, hnn]
              simp
              exact hlb

theorem checkpath_localbytes_invariant_witness :
    sizeInvB (syncInit [1]) = true ∧
    (checkpath exEnvA (syncInit [1]) none [1, 0, 10] none).1.localbytes =
      sumFileSizes (checkpath exEnvA (syncInit [1]) none [1, 0, 10] none).1 :=
  ⟨by decide,
   checkpath_localbytes_invariant exEnvA (syncInit [1]) none [1, 0, 10] none
     (by decide)
     (fun pth fa h => by
       by_cases hp : pth = [1, 0, 10]
       · have hv : exEnvA.fopen pth =
             FopenRes.ok ⟨Nodetype.FILENODE, 10, 5, some 42⟩ := by
           simp [exEnvA, hp]
         rw [hv] at h
         cases h
         decide
       · have hv : exEnvA.fopen pth = FopenRes.perm := by
           simp [exEnvA, hp]
         rw [hv] at h
         cases h)⟩

end MegaSync
